import Mathlib

/-!
Verification development for the FITS introspection pipeline
(`src/lib/fits/fits-parser.py`, `fits-analyzer.py`, `fits-visualizer.py`,
`run_fits_pipeline.py`).

The Python code is shallowly embedded: machine floats are modelled as an
inductive type `FVal` of exact rationals plus the non-finite values
(`nan`, `pinf`, `ninf`); Python dictionaries are association lists with
first-occurrence lookup and update-or-append assignment; per-unit
`try/except` recovery is modelled with `Option`.  External collaborators
(the astropy container decoder, numpy, matplotlib) appear as explicit data
(`FitsFile`, sample arrays) or as function parameters (the ZScale interval
estimator `zs`), mirroring the collaborator boundary in the design: the
repository's own logic is translated statement by statement.
-/

namespace Fits

/-- Header scalar values: astropy header cards carry strings, ints, floats,
booleans or None.  Floats are modelled as exact rationals. -/
inductive SVal where
  | vs (s : String)
  | vi (n : ℤ)
  | vq (q : ℚ)
  | vb (b : Bool)
  | vnone
  deriving DecidableEq, Repr

/-- Sample values of a numeric array: a finite rational or one of the IEEE
non-finite values. -/
inductive FVal where
  | fin (q : ℚ)
  | nan
  | pinf
  | ninf
  deriving DecidableEq, Repr

namespace FVal

/-- `np.isfinite`. -/
def isFinite : FVal → Bool
  | fin _ => true
  | _ => false

/-- Rational content of a finite value (junk `0` otherwise; only used under
an `isFinite` guard, as in the source). -/
def toQ : FVal → ℚ
  | fin q => q
  | _ => 0

def isNan : FVal → Bool
  | nan => true
  | _ => false

/-- IEEE addition on the embedded value type. -/
def fadd : FVal → FVal → FVal
  | nan, _ => nan
  | _, nan => nan
  | pinf, ninf => nan
  | ninf, pinf => nan
  | pinf, _ => pinf
  | _, pinf => pinf
  | ninf, _ => ninf
  | _, ninf => ninf
  | fin a, fin b => fin (a + b)

/-- IEEE subtraction. -/
def fsub : FVal → FVal → FVal
  | nan, _ => nan
  | _, nan => nan
  | pinf, pinf => nan
  | ninf, ninf => nan
  | pinf, _ => pinf
  | ninf, _ => ninf
  | _, pinf => ninf
  | _, ninf => pinf
  | fin a, fin b => fin (a - b)

/-- Multiplication by a finite rational scalar. -/
def fmulQ : FVal → ℚ → FVal
  | nan, _ => nan
  | pinf, g => if 0 < g then pinf else if g < 0 then ninf else nan
  | ninf, g => if 0 < g then ninf else if g < 0 then pinf else nan
  | fin a, g => fin (a * g)

/-- nan-ignoring binary minimum (the reduction step of `np.nanmin`);
`ninf < fin _ < pinf`. -/
def fminNN : FVal → FVal → FVal
  | nan, b => b
  | a, nan => a
  | ninf, _ => ninf
  | _, ninf => ninf
  | pinf, b => b
  | a, pinf => a
  | fin a, fin b => fin (min a b)

/-- nan-ignoring binary maximum (the reduction step of `np.nanmax`). -/
def fmaxNN : FVal → FVal → FVal
  | nan, b => b
  | a, nan => a
  | pinf, _ => pinf
  | _, pinf => pinf
  | ninf, b => b
  | a, ninf => a
  | fin a, fin b => fin (max a b)

/-- Total order used when sorting non-nan values (`np.sort` on a slice with
the nans already removed): `ninf` first, finite values by `≤`, `pinf` last.
The value `nan` never reaches a sort in the embedding; it is placed first. -/
def fleB : FVal → FVal → Bool
  | nan, _ => true
  | _, nan => false
  | ninf, _ => true
  | _, ninf => false
  | _, pinf => true
  | pinf, _ => false
  | fin a, fin b => decide (a ≤ b)

end FVal

/-- JSON-shaped values appearing in the per-HDU summary dictionaries built
by the parser and extended by the analyzer. -/
inductive PyVal where
  | pstr (s : String)
  | pint (n : ℤ)
  | prat (q : ℚ)
  | pbool (b : Bool)
  | pnone
  | pints (l : List ℤ)
  | pstrs (l : List String)
  | pdict (d : List (String × SVal))
  deriving DecidableEq, Repr

/-- A Python dict with `PyVal` values, as an association list. -/
abbrev PyDict := List (String × PyVal)

/-- `d.get(k)`: value at the first occurrence of a key. -/
def dget (d : PyDict) (k : String) : Option PyVal :=
  match d with
  | [] => none
  | (k', v) :: rest => if k' = k then some v else dget rest k

/-- `d[k] = v`: replace the value at an existing key, else append. -/
def dset (d : PyDict) (k : String) (v : PyVal) : PyDict :=
  match d with
  | [] => [(k, v)]
  | (k', v') :: rest => if k' = k then (k, v) :: rest else (k', v') :: dset rest k v

/-- Header assignment (update-or-append) for `SVal` dictionaries. -/
def hset (d : List (String × SVal)) (k : String) (v : SVal) : List (String × SVal) :=
  match d with
  | [] => [(k, v)]
  | (k', v') :: rest => if k' = k then (k, v) :: rest else (k', v') :: hset rest k v

/-- Python truthiness of a `PyVal`. -/
def pyTruthy : PyVal → Bool
  | .pstr s => !s.isEmpty
  | .pint n => decide (n ≠ 0)
  | .prat q => decide (q ≠ 0)
  | .pbool b => b
  | .pnone => false
  | .pints l => !l.isEmpty
  | .pstrs l => !l.isEmpty
  | .pdict d => !d.isEmpty

/-- Python truthiness of a header scalar. -/
def svalTruthy : SVal → Bool
  | .vs s => !s.isEmpty
  | .vi n => decide (n ≠ 0)
  | .vq q => decide (q ≠ 0)
  | .vb b => b
  | .vnone => false

/-- `str(...)` of a header scalar.  (For rational values the decimal float
rendering is abstracted by `toString` of the rational; the pipeline only
applies `str` to values that are strings in practice.) -/
def svalStr : SVal → String
  | .vs s => s
  | .vi n => toString n
  | .vq q => toString q
  | .vb b => if b then "True" else "False"
  | .vnone => "None"

/-- ASCII whitespace, the characters Python's `str.strip` removes. -/
def isSpaceChar (c : Char) : Bool :=
  c = ' ' ∨ c = '\t' ∨ c = '\n' ∨ c = '\r' ∨ c = '\x0b' ∨ c = '\x0c'

/-- Python's `str.strip()`. -/
def stripStr (s : String) : String :=
  String.mk (((s.data.dropWhile isSpaceChar).reverse.dropWhile isSpaceChar).reverse)

/-- The value of a non-empty digit string. -/
def digitsToNat (l : List Char) : ℕ :=
  l.foldl (fun acc c => acc * 10 + (c.toNat - 48)) 0

/-- Python's `int(str)`: an optional sign followed by digits; `none` is the
`ValueError`. -/
def parseIntStr (s : String) : Option ℤ :=
  match s.data with
  | '-' :: rest =>
      if rest ≠ [] ∧ rest.all Char.isDigit then some (-(digitsToNat rest : ℤ)) else none
  | '+' :: rest =>
      if rest ≠ [] ∧ rest.all Char.isDigit then some ((digitsToNat rest : ℤ)) else none
  | l => if l ≠ [] ∧ l.all Char.isDigit then some ((digitsToNat l : ℤ)) else none

/-- `int(...)` of a header scalar; `none` models the `TypeError`/`ValueError`
raised on non-convertible values (floats truncate toward zero). -/
def svalInt : SVal → Option ℤ
  | .vi n => some n
  | .vb b => some (if b then 1 else 0)
  | .vq q => some (q.num / (q.den : ℤ))
  | .vs s => parseIntStr s
  | .vnone => none

/-- ASCII lowercase of a string (`str.lower`). -/
def lowerStr (s : String) : String := String.mk (s.data.map Char.toLower)

/-- Does the second list start with the first? -/
def startsWithL : List Char → List Char → Bool
  | [], _ => true
  | _ :: _, [] => false
  | a :: as, b :: bs => a = b && startsWithL as bs

/-- Is the first list a contiguous sublist of the second? -/
def subListOf : List Char → List Char → Bool
  | pat, [] => pat.isEmpty
  | pat, c :: rest => startsWithL pat (c :: rest) || subListOf pat rest

/-- Python's substring test `pat in s`. -/
def strContains (s pat : String) : Bool := subListOf pat.data s.data

/-- Python's `str.startswith`. -/
def strStarts (s pat : String) : Bool := startsWithL pat.data s.data

/-! ## Container model

The astropy `HDUList` collaborator (spec section 6): a file is a list of
units; each unit exposes a kind tag (`type(hdu).__name__`), a header, and
optionally a sample array.  `header = none` models a unit whose lazy header
read raises (a corrupt unit), which the parser's per-unit `except` clause
turns into a skip. -/

/-- An ordered astropy header: key/value cards, duplicates possible. -/
abbrev Header := List (String × SVal)

/-- `header.get(k)`: first card with the key. -/
def hGet (h : Header) (k : String) : Option SVal :=
  match h with
  | [] => none
  | (k', v) :: rest => if k' = k then some v else hGet rest k

/-- `k in header`. -/
def hHas (h : Header) (k : String) : Bool := (hGet h k).isSome

/-- A numeric N-dimensional sample array: its shape and its row-major
flattened samples. -/
structure NDArr where
  shape : List ℕ
  flat : List FVal
  deriving DecidableEq, Repr

/-- A table cell: a numeric sample or a string. -/
inductive Cell where
  | cnum (v : FVal)
  | cstr (s : String)
  deriving DecidableEq, Repr

/-- One column of a binary-table unit: declared name, declared storage
format (`TFORMn`), and its cells. -/
structure TCol where
  name : String
  format : String
  cells : List Cell
  deriving DecidableEq, Repr

/-- The record array (`FITS_rec`) of a table unit. -/
structure TableData where
  cols : List TCol
  deriving DecidableEq, Repr

/-- The sample payload of a unit: an image array with its dtype kind
character (`"f"`, `"i"`, `"u"`, ...) or a record array. -/
inductive HduData where
  | img (a : NDArr) (dtypeKind : String)
  | tbl (t : TableData)
  deriving DecidableEq, Repr

/-- One logical data unit of the container. -/
structure Hdu where
  hkind : String
  header : Option Header
  data : Option HduData
  deriving DecidableEq, Repr

/-- The opened container. -/
abbrev FitsFile := List Hdu

/-- Python list indexing `l[i]` (negative indices wrap); `none` is an
`IndexError`. -/
def pyIndex (l : FitsFile) (i : ℤ) : Option Hdu :=
  if 0 ≤ i then l.get? i.toNat
  else
    let j : ℤ := (l.length : ℤ) + i
    if 0 ≤ j then l.get? j.toNat else none

/-! ## Metadata extractor (`fits-parser.py`) -/

/-- `_clean_header` (fits-parser.py:52): drop COMMENT/HISTORY cards, blank
keys and None values; strip remaining keys.  `_to_json_safe` is the
identity on the native scalar values of the model. -/
def clean_header (h : Header) : List (String × SVal) :=
  h.foldl
    (fun out kv =>
      if kv.1 = "COMMENT" ∨ kv.1 = "HISTORY" ∨ stripStr kv.1 = "" then out
      else
        match kv.2 with
        | .vnone => out
        | v => hset out (stripStr kv.1) v)
    []

/-- `_get_units_from_header` (fits-parser.py:75): collect `BUNIT` and, for
`i` in `1..99`, `TUNITi` and `CUNITi`, stringified and stripped. -/
def units_from_header (h : Header) : List (String × SVal) :=
  let base : List (String × SVal) :=
    match hGet h "BUNIT" with
    | some v => [("BUNIT", .vs (stripStr (svalStr v)))]
    | none => []
  (List.range' 1 99).foldl
    (fun out i =>
      let out :=
        match hGet h ("TUNIT" ++ toString i) with
        | some v => hset out ("TUNIT" ++ toString i) (.vs (stripStr (svalStr v)))
        | none => out
      match hGet h ("CUNIT" ++ toString i) with
      | some v => hset out ("CUNIT" ++ toString i) (.vs (stripStr (svalStr v)))
      | none => out)
    base

/-- `int(h.get(key, 0))` as used by `_data_shape_dtype`; `none` is the
exception on a non-convertible card. -/
def axisInt (h : Header) (key : String) : Option ℤ :=
  match hGet h key with
  | some v => svalInt v
  | none => some 0

/-- `_data_shape_dtype` (fits-parser.py:95): declared shape from the
`NAXIS`/`NAXISn` cards only; any conversion failure degrades to the empty
shape (the `except` clause). -/
def data_shape_from_header (h : Header) : List ℤ :=
  match axisInt h "NAXIS" with
  | none => []
  | some naxis =>
      if naxis ≤ 0 then []
      else
        match (List.range' 1 naxis.toNat).mapM (fun i => axisInt h ("NAXIS" ++ toString i)) with
        | some shape => shape
        | none => []

/-- The finite samples of a flattened array (`flat[np.isfinite(flat)]`),
as rationals. -/
def finiteVals (flat : List FVal) : List ℚ :=
  flat.filterMap (fun x => match x with | .fin q => some q | _ => none)

/-- `_image_stats` (fits-parser.py:112): nan fraction, finite min/max and
the uniformity flag; the empty finite set is uniform by convention. -/
def image_stats (a : NDArr) : PyDict :=
  if a.shape.length < 1 then []
  else
    let n := a.flat.length
    if n = 0 then []
    else
      let finiteCount := (a.flat.filter FVal.isFinite).length
      let nanFrac : ℚ := 1 - (finiteCount : ℚ) / (n : ℚ)
      match finiteVals a.flat with
      | [] =>
          [("nan_fraction", .prat nanFrac), ("min_value", .pnone),
           ("max_value", .pnone), ("is_uniform", .pbool true)]
      | v :: rest =>
          let vmin := rest.foldl min v
          let vmax := rest.foldl max v
          [("nan_fraction", .prat nanFrac), ("min_value", .prat vmin),
           ("max_value", .prat vmax), ("is_uniform", .pbool (vmin = vmax))]

/-- One summary entry (`get_summary`'s loop body, fits-parser.py:158-182),
for a unit whose header was read successfully.  `has_numeric_data` and the
statistics are attached only when the unit holds an actual ≥2-D array of
float/signed/unsigned dtype kind. -/
def summary_entry (i : ℕ) (hdu : Hdu) (h : Header) : PyDict :=
  let base : PyDict :=
    [("hdu_index", .pint (i : ℤ)),
     ("hdu_type", .pstr hdu.hkind),
     ("header", .pdict (clean_header h)),
     ("data_shape", .pints (data_shape_from_header h)),
     ("data_dtype", .pstr "unknown"),
     ("units", .pdict (units_from_header h))]
  match hdu.data with
  | some (.img a k) =>
      if (k = "f" ∨ k = "i" ∨ k = "u") ∧ 2 ≤ a.shape.length then
        base ++ [("has_numeric_data", .pbool true)] ++ image_stats a
      else base
  | some (.tbl _) => base
  | none => base

/-- Per-unit step of `get_summary`: a unit whose header read raises is
skipped (`except Exception: continue`, fits-parser.py:183). -/
def processUnit (i : ℕ) (hdu : Hdu) : Option PyDict :=
  (hdu.header).map (summary_entry i hdu)

/-- The `for i, hdu in enumerate(hdul)` loop of `get_summary`. -/
def summaryGo : ℕ → List Hdu → List PyDict
  | _, [] => []
  | i, hdu :: rest =>
      match processUnit i hdu with
      | some entry => entry :: summaryGo (i + 1) rest
      | none => summaryGo (i + 1) rest

/-- `get_summary` (fits-parser.py:144) on an already-opened file.  The
open-failure and iteration-failure paths (the `__error__` dicts) are
modelled by the `Except` parameter of `run_pipeline`. -/
def get_summary (file : FitsFile) : List PyDict := summaryGo 0 file

/-! ## Classifier (`fits-analyzer.py`) -/

/-- `_column_names_from_header`'s loop (fits-analyzer.py:35): read
`TTYPE1`, `TTYPE2`, ... stopping at the first missing ordinal; fuel bounds
the loop at 999 names as `range(1, 1000)` does. -/
def colNamesGo (h : Header) : ℕ → ℕ → List String
  | _, 0 => []
  | i, fuel + 1 =>
      match hGet h ("TTYPE" ++ toString i) with
      | none => []
      | some v => stripStr (svalStr v) :: colNamesGo h (i + 1) fuel

/-- `_column_names_from_header` (fits-analyzer.py:30). -/
def column_names_from_header (h : Header) : List String := colNamesGo h 1 999

/-- `_normalize_col` (fits-analyzer.py:46): strip underscores and
whitespace, lowercase.  Python's `\s` is modelled by its ASCII members. -/
def normalize_col (s : String) : String :=
  lowerStr (String.mk (s.data.filter
    (fun c => !(c = '_' ∨ c = ' ' ∨ c = '\t' ∨ c = '\n' ∨ c = '\r' ∨ c = '\x0b' ∨ c = '\x0c'))))

/-- The per-name test inside `_has_time_like` (fits-analyzer.py:50). -/
def timeMatch (c : String) : Bool :=
  ["time", "mjd", "jd", "date", "epoch", "bjd", "day"].contains (normalize_col c)

/-- The per-name test inside `_has_flux_like` (fits-analyzer.py:58). -/
def fluxMatch (c : String) : Bool :=
  let n := normalize_col c
  ["flux", "count", "rate", "counts", "mag", "magnitude", "fluxerr", "flux_err"].contains n
    || strContains n "flux" || strContains n "count"

/-- The per-name test inside `_has_wavelength_like` (fits-analyzer.py:67). -/
def wlMatch (c : String) : Bool :=
  let n := normalize_col c
  ["wavelength", "wave", "wl", "lam", "lambda", "energy", "freq", "frequency"].contains n
    || strContains n "wave" || strContains n "lam"

/-- `_has_time_like`. -/
def has_time_like (cols : List String) : Bool := cols.any timeMatch

/-- `_has_flux_like`. -/
def has_flux_like (cols : List String) : Bool := cols.any fluxMatch

/-- `_has_wavelength_like`. -/
def has_wavelength_like (cols : List String) : Bool := cols.any wlMatch

/-- `_classify_table` (fits-analyzer.py:76). -/
def classify_table (cols : List String) : String :=
  if cols.isEmpty then "table"
  else if has_time_like cols && has_flux_like cols then "light_curve"
  else if has_wavelength_like cols && has_flux_like cols then "spectrum"
  else "table"

/-- `_get_table_units` (fits-analyzer.py:86): `TUNITn` keyed by the n-th
column name when that name is non-empty, plus `BUNIT`. -/
def get_table_units (h : Header) : List (String × SVal) :=
  let names := column_names_from_header h
  let units := (names.enum).foldl
    (fun out iv =>
      let key := "TUNIT" ++ toString (iv.1 + 1)
      if hHas h key ∧ iv.2 ≠ "" then
        match hGet h key with
        | some v => hset out iv.2 (.vs (stripStr (svalStr v)))
        | none => out
      else out)
    []
  match hGet h "BUNIT" with
  | some v => hset units "BUNIT" (.vs (stripStr (svalStr v)))
  | none => units

/-- `_axis_meaning` (fits-analyzer.py:104): every string-valued `CTYPE*`
card of the cleaned header, stripped. -/
def axis_meaning (d : List (String × SVal)) : List (String × SVal) :=
  d.foldl
    (fun out kv =>
      match kv.2 with
      | .vs s => if strStarts kv.1 "CTYPE" then hset out kv.1 (.vs (stripStr s)) else out
      | _ => out)
    []

/-- `_header_suggests_error_map` (fits-analyzer.py:117): the Python `or`
chain takes the first *truthy* value of `DATATYPE`, `HDUCLAS1`, `EXTNAME`
(default `""`), and only that value is searched for the markers. -/
def header_suggests_error_map (d : List (String × SVal)) : Bool :=
  let pick (o : Option SVal) (alt : SVal) : SVal :=
    match o with
    | some v => if svalTruthy v then v else alt
    | none => alt
  let datatype := pick (hGet d "DATATYPE") (pick (hGet d "HDUCLAS1") (pick (hGet d "EXTNAME") (.vs "")))
  let s := lowerStr (svalStr datatype)
  strContains s "error" || strContains s "uncertainty"

/-- `_header_suggests_low_contrast` (fits-analyzer.py:124): declared
floating-point samples (`BITPIX < 0`) together with the extractor's
uniformity flag; conversion failures return `False`. -/
def header_suggests_low_contrast (d : List (String × SVal)) (summary : PyDict) : Bool :=
  match hGet d "BITPIX" with
  | none => false
  | some v =>
      match svalInt v with
      | none => false
      | some bp =>
          if 0 ≤ bp then false
          else pyTruthy ((dget summary "is_uniform").getD (.pbool false))

/-- `"ImageHDU" in hdu_type or "PrimaryHDU" in hdu_type`. -/
def isImageType (ty : String) : Bool :=
  strContains ty "ImageHDU" || strContains ty "PrimaryHDU"

/-- `"BinTableHDU" in hdu_type or "TableHDU" in hdu_type`. -/
def isTableType (ty : String) : Bool :=
  strContains ty "BinTableHDU" || strContains ty "TableHDU"

/-- `summary.get("header", {})` (fits-analyzer.py:147). -/
def headerDictOf (s : PyDict) : List (String × SVal) :=
  match dget s "header" with
  | some (.pdict d) => d
  | _ => []

/-- `dict(summary.get("units", {}))` (fits-analyzer.py:151). -/
def unitsDictOf (s : PyDict) : List (String × SVal) :=
  match dget s "units" with
  | some (.pdict u) => u
  | _ => []

/-- The `try` block of `analyze_hdu` (fits-analyzer.py:154-179), returning
classification, column names and units; `none` is an escaped exception,
which the `except` clause replaces by `("unknown", [], units0)` where
`units0` is the dict built on line 151. -/
def analyzeCore (file : FitsFile) (summary : PyDict) :
    Option (String × List String × List (String × SVal)) :=
  match
    (match dget summary "hdu_type" with
     | some (.pstr t) => some t
     | none => some ""
     | some _ => none) with
  | none => none
  | some ty =>
      let units0 := unitsDictOf summary
      if isImageType ty then
        match
          (match dget summary "data_shape" with
           | some (.pints l) => some l
           | none => some []
           | some _ => none) with
        | none => none
        | some shape =>
            let hd := headerDictOf summary
            let ndim := shape.length
            let c :=
              if 2 ≤ ndim then
                if header_suggests_error_map hd then "error_map"
                else if header_suggests_low_contrast hd summary then "low_contrast_image"
                else "image"
              else if ndim = 1 then "image"
              else "unknown"
            some (c, [], units0)
      else if isTableType ty then
        match
          (match dget summary "hdu_index" with
           | some (.pint n) => some n
           | none => some 0
           | some _ => none) with
        | none => none
        | some idx =>
            if idx < (file.length : ℤ) then
              match pyIndex file idx with
              | none => none
              | some hdu =>
                  match hdu.header with
                  | none => none
                  | some hdr =>
                      let cols := column_names_from_header hdr
                      some (classify_table cols, cols, get_table_units hdr)
            else
              some (classify_table [], [], units0)
      else
        some ("unknown", [], units0)

/-- `analyze_hdu` (fits-analyzer.py:139): start from a copy of the summary
and layer `classification`, `column_names`, `units`, `axis_meaning`. -/
def analyze_hdu (file : FitsFile) (summary : PyDict) : PyDict :=
  let units0 := unitsDictOf summary
  let am := axis_meaning (headerDictOf summary)
  let (c, cols, units) :=
    match analyzeCore file summary with
    | some r => r
    | none => ("unknown", [], units0)
  dset (dset (dset (dset summary "classification" (.pstr c))
    "column_names" (.pstrs cols)) "units" (.pdict units)) "axis_meaning" (.pdict am)

/-- `analyze` (fits-analyzer.py:192); `analyze_hdu` is total in the model,
so the per-unit fallback branch is unreachable. -/
def analyze (file : FitsFile) (summaries : List PyDict) : List PyDict :=
  summaries.map (analyze_hdu file)

/-! ## Renderer (`fits-visualizer.py`)

Plot rasterization (`matplotlib`) is a collaborator; a render function
returns the series/array it would plot (`some _`) or `none` for the
fail-closed paths.  The ZScale interval estimator (`astropy.visualization.
ZScaleInterval`) is likewise a collaborator and is passed in as a function
`zs`; `zs data = none` models `get_limits` raising. -/

/-- `MAX_TABLE_ROWS` (fits-visualizer.py:47). -/
def MAX_TABLE_ROWS : ℕ := 50000

/-- `np.nanmin` as a reduction with `fminNN`; `none` is the exception on a
zero-size array, a nan result means every sample was nan. -/
def nanminL : List FVal → Option FVal
  | [] => none
  | x :: xs => some (xs.foldl FVal.fminNN x)

/-- `np.nanmax`. -/
def nanmaxL : List FVal → Option FVal
  | [] => none
  | x :: xs => some (xs.foldl FVal.fmaxNN x)

/-- Linear interpolation `a + (b - a) * g` on sample values, with the IEEE
special cases, as used by `np.nanpercentile`. -/
def fvLerp (a b : FVal) (g : ℚ) : FVal := a.fadd ((b.fsub a).fmulQ g)

/-- The linear-interpolation step of `np.nanpercentile` on the sorted
non-nan samples: the value at fractional rank `p/100 * (k-1)`. -/
def percentileOfSorted (p : ℚ) (vs : List FVal) : FVal :=
  if vs.isEmpty then .nan
  else
    let rank : ℚ := p / 100 * ((vs.length : ℚ) - 1)
    let i : ℕ := (Int.floor rank).toNat
    let g : ℚ := rank - (i : ℚ)
    if g = 0 then vs.getD i .nan
    else fvLerp (vs.getD i .nan) (vs.getD (i + 1) .nan) g

/-- `np.nanpercentile(data, p)` with the default linear interpolation:
sort the non-nan samples, interpolate at the fractional rank.  A nan
result covers the all-nan slice and the zero-size exception, both of
which the caller rejects the same way. -/
def nanpercentile (p : ℚ) (data : List FVal) : FVal :=
  percentileOfSorted p
    (List.insertionSort (fun a b => FVal.fleB a b = true)
      (data.filter (fun x => !x.isNan)))

/-- `1e-6`, exactly. -/
def eps6 : ℚ := 1 / 1000000

/-- Tier 3 of `_get_interval_limits` (fits-visualizer.py:75-86): finite
min/max with `0` replacing a non-finite minimum and `vmin + 1e-6`
replacing a non-finite or degenerate maximum; the zero-size exception
falls through to `(0.0, 1.0)`. -/
def tier3_limits (data : List FVal) : ℚ × ℚ :=
  match nanminL data, nanmaxL data with
  | some m, some bigM =>
      let vmin : ℚ := if m.isFinite then m.toQ else 0
      let vmax : ℚ :=
        if bigM.isFinite then (if bigM.toQ = vmin then vmin + eps6 else bigM.toQ)
        else vmin + eps6
      (vmin, vmax)
  | _, _ => (0, 1)

/-- Tier 2 of `_get_interval_limits` (fits-visualizer.py:68-74): the 1st
and 99th nan-percentiles, accepted only when finite and distinct. -/
def tier2_limits (data : List FVal) : ℚ × ℚ :=
  let p1 := nanpercentile 1 data
  let p99 := nanpercentile 99 data
  if p1.isFinite && p99.isFinite && decide (p1.toQ ≠ p99.toQ) then (p1.toQ, p99.toQ)
  else tier3_limits data

/-- The acceptance test applied to the ZScale result (fits-visualizer.py:
64): both bounds finite and distinct. -/
def zAccept (p : FVal × FVal) : Bool :=
  p.1.isFinite && p.2.isFinite && decide (p.1.toQ ≠ p.2.toQ)

/-- `_get_interval_limits` (fits-visualizer.py:58): ZScale, then
percentiles, then min/max with the non-degeneracy patch. -/
def get_interval_limits (zs : List FVal → Option (FVal × FVal)) (data : List FVal) : ℚ × ℚ :=
  match zs data with
  | some p => if zAccept p then (p.1.toQ, p.2.toQ) else tier2_limits data
  | none => tier2_limits data

/-- `_downsample_indices` (fits-visualizer.py:128): identity below the
cap; above it, `np.linspace(0, n-1, max_n, dtype=int)` truncates the
evenly spaced reals — exactly `i*(n-1)/(max_n-1)` in integer division —
and `np.unique` sorts and deduplicates. -/
def downsample_indices (n maxN : ℕ) : List ℕ :=
  if n ≤ maxN then List.range n
  else
    ((List.range maxN).map (fun i => i * (n - 1) / (maxN - 1))
      |> List.insertionSort (· ≤ ·)).dedup

/-- The payload handed to the plotting backend by a table-style render,
plus the pre-downsampling row count `n = len(x)` (recorded for the cap
property; it is a local of the source, not part of the plot call). -/
structure PlotSeries where
  xlabel : String
  ylabel : String
  xs : List FVal
  ys : List FVal
  nRows : ℕ
  deriving DecidableEq, Repr

/-- `np.asarray(column, dtype=float)` on one cell; string cells convert
when they spell a number (modelled for unsigned integer literals — the
development only exercises clearly numeric or clearly non-numeric
strings), and `none` is the `ValueError` on any other string. -/
def cellFloat : Cell → Option FVal
  | .cnum v => some v
  | .cstr s =>
      if s ≠ "" ∧ s.data.all Char.isDigit then some (.fin ((digitsToNat s.data : ℕ) : ℚ))
      else none

/-- Column conversion: every cell must convert. -/
def cellsToFloats : List Cell → Option (List FVal)
  | [] => some []
  | c :: rest =>
      match cellFloat c, cellsToFloats rest with
      | some v, some vs => some (v :: vs)
      | _, _ => none

/-- `data[name]` on a record array; `none` is the `KeyError`. -/
def colCells (t : TableData) (name : String) : Option (List Cell) :=
  (t.cols.find? (fun c => c.name = name)).map TCol.cells

/-- `x[idx]` fancy indexing; `none` is the out-of-bounds `IndexError`. -/
def selectIdx (l : List FVal) : List ℕ → Option (List FVal)
  | [] => some []
  | i :: rest =>
      match l.get? i, selectIdx l rest with
      | some v, some vs => some (v :: vs)
      | _, _ => none

/-- The `numeric` accumulation of `_first_numeric_columns`
(fits-visualizer.py:141-151): a name survives when the column at its
ordinal position declares a numeric storage format (`E/D/I/J/K` in
`TFORMn`), enumeration stopping at the column count. -/
def numericNames (t : TableData) (colNames : List String) : List String :=
  ((colNames.zip t.cols).filter
    (fun nc => ["E", "D", "I", "J", "K"].any (fun ch => strContains nc.2.format ch))).map
    Prod.fst

/-- `_first_numeric_columns` (fits-visualizer.py:136): the first two
numeric names; with one numeric name the second slot is empty (row index
downstream); with none, fall back to the first two declared names. -/
def first_numeric_columns (t : TableData) (colNames : List String) : String × String :=
  if colNames.isEmpty then ("", "")
  else
    match numericNames t colNames with
    | c1 :: c2 :: _ => (c1, c2)
    | [c1] => (c1, "")
    | [] => (colNames.headD "", (colNames.drop 1).headD "")

/-- The visualizer's own name normalization (fits-visualizer.py:166):
only underscores and plain spaces are removed, then lowercase. -/
def normNameV (s : String) : String :=
  lowerStr (String.mk (s.data.filter (fun c => !(c = '_' ∨ c = ' '))))

/-- `_time_flux_columns` (fits-visualizer.py:159): the *last* matching
name wins; missing roles fall back to the first / second declared name. -/
def time_flux_columns (colNames : List String) : String × String :=
  let tc := colNames.foldl
    (fun acc c =>
      if ["time", "mjd", "jd", "date", "epoch", "bjd", "day"].contains (normNameV c) then c else acc) ""
  let fc := colNames.foldl
    (fun acc c =>
      let n := normNameV c
      if ["flux", "count", "rate", "counts", "mag", "magnitude", "fluxerr", "flux_err"].contains n
          || strContains n "flux" || strContains n "count" then c else acc) ""
  let tc := if tc = "" ∧ ¬colNames.isEmpty then colNames.headD "" else tc
  let fc := if fc = "" ∧ 1 < colNames.length then (colNames.drop 1).headD "" else fc
  (tc, fc)

/-- `_wavelength_flux_columns` (fits-visualizer.py:178); note its flux
vocabulary omits `fluxerr`/`flux_err` and the `count` substring. -/
def wavelength_flux_columns (colNames : List String) : String × String :=
  let wc := colNames.foldl
    (fun acc c =>
      let n := normNameV c
      if ["wavelength", "wave", "wl", "lam", "lambda", "energy", "freq", "frequency"].contains n
          || strContains n "wave" || strContains n "lam" then c else acc) ""
  let fc := colNames.foldl
    (fun acc c =>
      let n := normNameV c
      if ["flux", "count", "rate", "counts", "mag", "magnitude"].contains n
          || strContains n "flux" then c else acc) ""
  let wc := if wc = "" ∧ ¬colNames.isEmpty then colNames.headD "" else wc
  let fc := if fc = "" ∧ 1 < colNames.length then (colNames.drop 1).headD "" else fc
  (wc, fc)

/-- Shared body of the three table renders after the two columns are
chosen (fits-visualizer.py:210-223 etc.): convert, cap at
`MAX_TABLE_ROWS` rows by uniform downsampling, plot. -/
def seriesOf (t : TableData) (c1 c2 : String) (rowIndexY : Bool) :
    Option (List FVal × List FVal × ℕ) :=
  match colCells t c1 with
  | none => none
  | some xcells =>
      match cellsToFloats xcells with
      | none => none
      | some x =>
          let yOpt : Option (List FVal) :=
            if rowIndexY then some ((List.range x.length).map (fun j => FVal.fin (j : ℚ)))
            else
              match colCells t c2 with
              | none => none
              | some ycells => cellsToFloats ycells
          match yOpt with
          | none => none
          | some y =>
              let n := x.length
              if MAX_TABLE_ROWS < n then
                match selectIdx x (downsample_indices n MAX_TABLE_ROWS),
                      selectIdx y (downsample_indices n MAX_TABLE_ROWS) with
                | some xd, some yd => some (xd, yd, n)
                | _, _ => none
              else some (x, y, n)

/-- The table payload of a unit, if it has one. -/
def tableAt (file : FitsFile) (i : ℤ) : Option TableData :=
  match pyIndex file i with
  | none => none
  | some hdu =>
      match hdu.data with
      | some (.tbl t) => some t
      | _ => none

/-- `_render_light_curve` (fits-visualizer.py:196). -/
def render_light_curve (file : FitsFile) (i : ℤ) (colNames : List String) : Option PlotSeries :=
  match tableAt file i with
  | none => none
  | some t =>
      let tf := time_flux_columns colNames
      if tf.1 = "" ∨ tf.2 = "" then none
      else
        match seriesOf t tf.1 tf.2 false with
        | none => none
        | some (x, y, n) => some ⟨tf.1, tf.2, x, y, n⟩

/-- `_render_spectrum` (fits-visualizer.py:228). -/
def render_spectrum (file : FitsFile) (i : ℤ) (colNames : List String) : Option PlotSeries :=
  match tableAt file i with
  | none => none
  | some t =>
      let wf := wavelength_flux_columns colNames
      if wf.1 = "" ∨ wf.2 = "" then none
      else
        match seriesOf t wf.1 wf.2 false with
        | none => none
        | some (x, y, n) => some ⟨wf.1, wf.2, x, y, n⟩

/-- `_render_table_scatter` (fits-visualizer.py:260): first numeric pair,
row index as the second axis when only one numeric column exists. -/
def render_table_scatter (file : FitsFile) (i : ℤ) (colNames : List String) : Option PlotSeries :=
  match tableAt file i with
  | none => none
  | some t =>
      let cc := first_numeric_columns t colNames
      if cc.1 = "" then none
      else
        match seriesOf t cc.1 cc.2 (cc.2 = "") with
        | none => none
        | some (x, y, n) => some ⟨cc.1, if cc.2 = "" then "index" else cc.2, x, y, n⟩

/-- The image payload handed to the raster backend: the display range and
whether the asinh stretch was selected. -/
structure ImgRender where
  vmin : FVal
  vmax : FVal
  asinh : Bool
  deriving DecidableEq, Repr

/-- `vmax > vmin` on sample values (any comparison with nan is false). -/
def fvGt (a b : FVal) : Bool :=
  match a, b with
  | .fin x, .fin y => decide (y < x)
  | .pinf, .fin _ => true
  | .pinf, .ninf => true
  | .fin _, .ninf => true
  | _, _ => false

/-- `_render_image` (fits-visualizer.py:89): fails closed on a missing
unit, missing data, a record array (whose float cast raises) and any
non-2-D array; then resolves the display range, re-patches a degenerate
range (lines 105-107) and picks asinh vs linear stretch. -/
def render_image (zs : List FVal → Option (FVal × FVal)) (file : FitsFile) (i : ℤ) :
    Option ImgRender :=
  match pyIndex file i with
  | none => none
  | some hdu =>
      match hdu.data with
      | none => none
      | some (.tbl _) => none
      | some (.img a _) =>
          if a.shape.length ≠ 2 then none
          else
            let (v0, v1) := get_interval_limits zs a.flat
            let p : Option (FVal × FVal) :=
              if v0 = v1 then
                match nanminL a.flat, nanmaxL a.flat with
                | some m, some bigM =>
                    let vmax :=
                      if bigM.isFinite ∧ bigM ≠ m then bigM else m.fadd (.fin eps6)
                    some (m, vmax)
                | _, _ => none
              else some (.fin v0, .fin v1)
            match p with
            | none => none
            | some (vmin, vmax) => some ⟨vmin, vmax, fvGt vmax vmin⟩

/-- The plottable category set `IMAGE_LIKE` (fits-visualizer.py:55). -/
def IMAGE_LIKE : List String := ["image", "error_map", "low_contrast_image"]

/-- `visualize_hdu` (fits-visualizer.py:295): dispatch on the
classification; `mkdirOk = false` models `os.makedirs` raising, which the
enclosing `try` turns into a null preview. -/
def visualize_hdu (zs : List FVal → Option (FVal × FVal)) (file : FitsFile)
    (analysis : PyDict) (fileId : String) (mkdirOk : Bool) : Option String :=
  if !mkdirOk then none
  else
    let idx : Option ℤ :=
      match dget analysis "hdu_index" with
      | some (.pint n) => some n
      | none => some 0
      | some _ => none
    match idx with
    | none => none
    | some i =>
        let cls :=
          match dget analysis "classification" with
          | some (.pstr c) => c
          | _ => "unknown"
        let cols :=
          match dget analysis "column_names" with
          | some (.pstrs l) => l
          | _ => []
        let ok :=
          if IMAGE_LIKE.contains cls then (render_image zs file i).isSome
          else if cls = "light_curve" then (render_light_curve file i cols).isSome
          else if cls = "spectrum" then (render_spectrum file i cols).isSome
          else if cls = "table" then (render_table_scatter file i cols).isSome
          else (render_image zs file i).isSome
        if ok then some ("/previews/fits_" ++ fileId ++ "_hdu_" ++ toString i ++ ".png")
        else none

/-- `visualize` (fits-visualizer.py:332). -/
def visualize (zs : List FVal → Option (FVal × FVal)) (file : FitsFile)
    (analyses : List PyDict) (fileId : String) (mkdirOk : Bool) : List (Option String) :=
  analyses.map (fun a => visualize_hdu zs file a fileId mkdirOk)

/-! ## Pipeline orchestrator (`run_fits_pipeline.py`) -/

/-- One record of the final `hdus` list (run_fits_pipeline.py:120-127). -/
structure HduRecord where
  index : ℤ
  hduType : String
  classification : String
  previewImage : Option String
  metadata : List (String × SVal)
  units : List (String × SVal)
  deriving DecidableEq, Repr

/-- The JSON-shaped result of `run_pipeline`. -/
structure PipelineResult where
  status : String
  fileName : String
  hdus : List HduRecord
  warnings : List String
  error : Option String
  deriving DecidableEq, Repr

/-- One final record: `a.get(...)` with the source's defaults. -/
def buildRecord (i : ℕ) (a : PyDict) (preview : Option String) : HduRecord :=
  { index :=
      match dget a "hdu_index" with
      | some (.pint n) => n
      | _ => (i : ℤ)
    hduType :=
      match dget a "hdu_type" with
      | some (.pstr t) => t
      | _ => "Unknown"
    classification :=
      match dget a "classification" with
      | some (.pstr c) => c
      | _ => "unknown"
    previewImage := preview
    metadata :=
      match dget a "header" with
      | some (.pdict d) => d
      | _ => []
    units :=
      match dget a "units" with
      | some (.pdict d) => d
      | _ => [] }

/-- The `for i, a in enumerate(analyzed)` assembly loop
(run_fits_pipeline.py:117-127); a preview index beyond the url list
degrades to `None`. -/
def assembleGo (i : ℕ) : List PyDict → List (Option String) → List HduRecord
  | [], _ => []
  | a :: rest, urls =>
      buildRecord i a (((urls.get? 0).getD none)) :: assembleGo (i + 1) rest (urls.drop 1)

/-- `PLOTTABLE` (run_fits_pipeline.py:42). -/
def PLOTTABLE : List String :=
  ["image", "error_map", "low_contrast_image", "spectrum", "light_curve", "table"]

/-- `a.get("classification") in PLOTTABLE`. -/
def recPlottable (a : PyDict) : Bool :=
  match dget a "classification" with
  | some (.pstr c) => PLOTTABLE.contains c
  | _ => false

/-- `run_pipeline` (run_fits_pipeline.py:45).  `openRes` is the outcome of
`safe_open_fits` plus HDU iteration (both `__error__` paths yield the same
branch); `mkdirs` is the outcome of `os.makedirs(previews_dir)`, whose
failure is the batch-level rendering exception.  In the model `analyze`
is total, so the classification-stage `except` branch is unreachable. -/
def run_pipeline (zs : List FVal → Option (FVal × FVal))
    (openRes : Except String FitsFile) (mkdirs : Except String Unit)
    (baseName fileId : String) : PipelineResult :=
  match openRes with
  | .error e => ⟨"error", baseName, [], [], some e⟩
  | .ok file =>
      let summaries := get_summary file
      if summaries.isEmpty then
        ⟨"valid_no_visualizable_data", baseName, [], [], none⟩
      else
        let hasAnyNumeric :=
          summaries.any (fun s => pyTruthy ((dget s "has_numeric_data").getD .pnone))
        if !hasAnyNumeric then
          ⟨"error", baseName, [], [], some "No HDU contains numeric image data."⟩
        else
          let analyzed := analyze file summaries
          let hasPlottable := analyzed.any recPlottable
          if !hasPlottable then
            ⟨"valid_no_visualizable_data", baseName, [], [], none⟩
          else
            let (previewUrls, warns) :=
              match mkdirs with
              | .ok _ => (visualize zs file analyzed fileId true, ([] : List String))
              | .error e => (List.replicate analyzed.length none, [e])
            ⟨"success", baseName, assembleGo 0 analyzed previewUrls, warns, none⟩

/-! ## Generic dictionary lemmas -/

theorem dget_dset_self (d : PyDict) (k : String) (v : PyVal) :
    dget (dset d k v) k = some v := by
  induction d with
  | nil => simp [dget, dset]
  | cons kv rest ih =>
      by_cases h : kv.1 = k
      · simp [dget, dset, h]
      · simp [dget, dset, h, ih]

theorem dget_dset_ne (d : PyDict) (k k' : String) (v : PyVal) (h : k' ≠ k) :
    dget (dset d k v) k' = dget d k' := by
  induction d with
  | nil => simp [dget, dset, h, Ne.symm h]
  | cons kv rest ih =>
      by_cases hk : kv.1 = k
      · subst hk
        simp [dget, dset, h, Ne.symm h]
      · by_cases hk' : kv.1 = k'
        · subst hk'
          simp [dget, dset, hk, h]
        · simp [dget, dset, hk, hk', ih]

/-! ## C9 — column-vocabulary matching is case- and separator-insensitive -/

/-- C9: membership of a column name in the time-like, flux-like or
wavelength-like family depends only on the name after lowercasing and
stripping underscores and whitespace (`_normalize_col`); in particular
"Flux_Err", "fluxerr" and "FLUX ERR" all match the flux-like family. -/
theorem column_vocab_normalization_invariance :
    (∀ c1 c2 : String, normalize_col c1 = normalize_col c2 →
      timeMatch c1 = timeMatch c2 ∧ fluxMatch c1 = fluxMatch c2 ∧ wlMatch c1 = wlMatch c2)
    ∧ fluxMatch "Flux_Err" = true ∧ fluxMatch "fluxerr" = true ∧ fluxMatch "FLUX ERR" = true := by
  refine ⟨fun c1 c2 h => ⟨?_, ?_, ?_⟩, by decide, by decide, by decide⟩ <;>
    simp only [timeMatch, fluxMatch, wlMatch, h]

/-- Witness for C9 at concrete names. -/
theorem column_vocab_normalization_invariance_witness :
    (timeMatch "A_B" = timeMatch "ab" ∧ fluxMatch "A_B" = fluxMatch "ab"
      ∧ wlMatch "A_B" = wlMatch "ab")
    ∧ fluxMatch "Flux_Err" = true ∧ fluxMatch "fluxerr" = true ∧ fluxMatch "FLUX ERR" = true :=
  ⟨column_vocab_normalization_invariance.1 "A_B" "ab" (by decide),
   column_vocab_normalization_invariance.2.1,
   column_vocab_normalization_invariance.2.2.1,
   column_vocab_normalization_invariance.2.2.2⟩

/-! ## C1 — all units without numeric data force the error status -/

/-- C1: when the file opens and yields a non-empty summary list in which
no unit carries a truthy `has_numeric_data`, `run_pipeline` returns status
"error", the no-numeric-image-data message, and an empty unit list. -/
theorem run_pipeline_no_numeric_error (zs : List FVal → Option (FVal × FVal))
    (file : FitsFile) (mk : Except String Unit) (nm fid : String)
    (hne : get_summary file ≠ [])
    (hnum : ∀ s ∈ get_summary file,
      pyTruthy ((dget s "has_numeric_data").getD .pnone) = false) :
    (run_pipeline zs (.ok file) mk nm fid).status = "error"
    ∧ (run_pipeline zs (.ok file) mk nm fid).error = some "No HDU contains numeric image data."
    ∧ (run_pipeline zs (.ok file) mk nm fid).hdus = [] := by
  have h1 : (get_summary file).isEmpty = false := by
    cases hh : get_summary file with
    | nil => exact absurd hh hne
    | cons a l => simp
  have h2 : (get_summary file).any
      (fun s => pyTruthy ((dget s "has_numeric_data").getD .pnone)) = false := by
    rw [List.any_eq_false]
    intro s hs
    simp [hnum s hs]
  simp [run_pipeline, h1, h2]

/-- Witness for C1: a single-unit file whose unit holds no sample data. -/
theorem run_pipeline_no_numeric_error_witness :
    (run_pipeline (fun _ => none) (.ok [⟨"PrimaryHDU", some [("NAXIS", .vi 0)], none⟩])
      (.ok ()) "f" "id").status = "error"
    ∧ (run_pipeline (fun _ => none) (.ok [⟨"PrimaryHDU", some [("NAXIS", .vi 0)], none⟩])
      (.ok ()) "f" "id").error = some "No HDU contains numeric image data."
    ∧ (run_pipeline (fun _ => none) (.ok [⟨"PrimaryHDU", some [("NAXIS", .vi 0)], none⟩])
      (.ok ()) "f" "id").hdus = [] :=
  run_pipeline_no_numeric_error (fun _ => none) [⟨"PrimaryHDU", some [("NAXIS", .vi 0)], none⟩]
    (.ok ()) "f" "id" (by decide) (by decide)

/-! ## C4 — a batch-level rendering exception is non-fatal -/

theorem assembleGo_preview_none :
    ∀ (l : List PyDict) (urls : List (Option String)) (i : ℕ),
      (∀ u ∈ urls, u = none) →
      ∀ r ∈ assembleGo i l urls, r.previewImage = none := by
  intro l
  induction l with
  | nil => intro urls i _ r hr; simp [assembleGo] at hr
  | cons a rest ih =>
      intro urls i hu r hr
      simp only [assembleGo, List.mem_cons] at hr
      rcases hr with hr | hr
      · subst hr
        show ((urls.get? 0).getD none) = none
        cases urls with
        | nil => rfl
        | cons u us => simpa [List.get?] using hu u (by simp)
      · exact ih (urls.drop 1) (i + 1) (fun u hu' => hu u (List.mem_of_mem_drop hu')) r hr

/-- C4: when extraction and classification succeed but the batch-level
rendering step raises (here: `os.makedirs` fails with message `e`),
`run_pipeline` still returns status "success", appends `e` to the warnings
list, reports no error, and gives every unit a null preview. -/
theorem run_pipeline_render_failure_nonfatal (zs : List FVal → Option (FVal × FVal))
    (file : FitsFile) (e : String) (nm fid : String)
    (hne : get_summary file ≠ [])
    (hn : (get_summary file).any
      (fun s => pyTruthy ((dget s "has_numeric_data").getD .pnone)) = true)
    (hp : (analyze file (get_summary file)).any recPlottable = true) :
    (run_pipeline zs (.ok file) (.error e) nm fid).status = "success"
    ∧ (run_pipeline zs (.ok file) (.error e) nm fid).warnings = [e]
    ∧ (run_pipeline zs (.ok file) (.error e) nm fid).error = none
    ∧ ∀ r ∈ (run_pipeline zs (.ok file) (.error e) nm fid).hdus, r.previewImage = none := by
  have h1 : (get_summary file).isEmpty = false := by
    cases hh : get_summary file with
    | nil => exact absurd hh hne
    | cons a l => simp
  have hr : run_pipeline zs (.ok file) (.error e) nm fid =
      ⟨"success", nm,
        assembleGo 0 (analyze file (get_summary file))
          (List.replicate (analyze file (get_summary file)).length none), [e], none⟩ := by
    simp [run_pipeline, h1, hn, hp]
  rw [hr]
  exact ⟨rfl, rfl, rfl,
    assembleGo_preview_none _ _ 0 (fun u hu => List.eq_of_mem_replicate hu)⟩

/-- Witness for C4: a one-unit uniform float image file with a failing
previews directory. -/
theorem run_pipeline_render_failure_nonfatal_witness :
    (run_pipeline (fun _ => none) (.ok [⟨"PrimaryHDU",
        some [("BITPIX", .vi (-64)), ("NAXIS", .vi 2), ("NAXIS1", .vi 2), ("NAXIS2", .vi 2)],
        some (.img ⟨[2, 2], [.fin 1, .fin 1, .fin 1, .fin 1]⟩ "f")⟩])
      (.error "cannot create dir") "f" "id").status = "success"
    ∧ (run_pipeline (fun _ => none) (.ok [⟨"PrimaryHDU",
        some [("BITPIX", .vi (-64)), ("NAXIS", .vi 2), ("NAXIS1", .vi 2), ("NAXIS2", .vi 2)],
        some (.img ⟨[2, 2], [.fin 1, .fin 1, .fin 1, .fin 1]⟩ "f")⟩])
      (.error "cannot create dir") "f" "id").warnings = ["cannot create dir"]
    ∧ (run_pipeline (fun _ => none) (.ok [⟨"PrimaryHDU",
        some [("BITPIX", .vi (-64)), ("NAXIS", .vi 2), ("NAXIS1", .vi 2), ("NAXIS2", .vi 2)],
        some (.img ⟨[2, 2], [.fin 1, .fin 1, .fin 1, .fin 1]⟩ "f")⟩])
      (.error "cannot create dir") "f" "id").error = none
    ∧ ∀ r ∈ (run_pipeline (fun _ => none) (.ok [⟨"PrimaryHDU",
        some [("BITPIX", .vi (-64)), ("NAXIS", .vi 2), ("NAXIS1", .vi 2), ("NAXIS2", .vi 2)],
        some (.img ⟨[2, 2], [.fin 1, .fin 1, .fin 1, .fin 1]⟩ "f")⟩])
      (.error "cannot create dir") "f" "id").hdus, r.previewImage = none :=
  run_pipeline_render_failure_nonfatal (fun _ => none)
    [⟨"PrimaryHDU",
      some [("BITPIX", .vi (-64)), ("NAXIS", .vi 2), ("NAXIS1", .vi 2), ("NAXIS2", .vi 2)],
      some (.img ⟨[2, 2], [.fin 1, .fin 1, .fin 1, .fin 1]⟩ "f")⟩]
    "cannot create dir" "f" "id" (by decide) (by decide) (by decide)

/-! ## C2 — the display-range fallback is non-degenerate -/

theorem getD_mem_of_lt {l : List FVal} {i : ℕ} (h : i < l.length) (d : FVal) :
    l.getD i d ∈ l := by
  rw [List.getD_eq_getElem?_getD, List.getElem?_eq_getElem h, Option.getD_some]
  exact List.getElem_mem h

theorem foldl_mix (f : FVal → FVal → FVal) (v : ℚ)
    (h1 : f (.fin v) (.fin v) = .fin v) (h2 : f (.fin v) .nan = .fin v)
    (h3 : f .nan (.fin v) = .fin v) (h4 : f .nan .nan = .nan) :
    ∀ (l : List FVal) (a : FVal), (∀ x ∈ l, x = .fin v ∨ x = .nan) →
      (a = .fin v ∨ a = .nan) → (a = .fin v ∨ .fin v ∈ l) →
      l.foldl f a = .fin v := by
  intro l
  induction l with
  | nil =>
      intro a _ _ hv
      rcases hv with h | h
      · simpa using h
      · simp at h
  | cons x xs ih =>
      intro a hall ha hv
      rw [List.foldl_cons]
      have hx := hall x (by simp)
      have hall' : ∀ y ∈ xs, y = .fin v ∨ y = .nan := fun y hy => hall y (by simp [hy])
      rcases ha with ha | ha <;> rcases hx with hx | hx <;> subst ha <;> subst hx
      · rw [h1]; exact ih _ hall' (Or.inl rfl) (Or.inl rfl)
      · rw [h2]; exact ih _ hall' (Or.inl rfl) (Or.inl rfl)
      · rw [h3]; exact ih _ hall' (Or.inl rfl) (Or.inl rfl)
      · rw [h4]
        refine ih _ hall' (Or.inr rfl) (Or.inr ?_)
        rcases hv with hv | hv
        · exact absurd hv (by simp)
        · rcases List.mem_cons.1 hv with h | h
          · exact absurd h (by simp)
          · exact h

theorem foldl_nan (f : FVal → FVal → FVal) (h4 : f .nan .nan = .nan) :
    ∀ l : List FVal, (∀ x ∈ l, x = .nan) → l.foldl f .nan = .nan := by
  intro l
  induction l with
  | nil => intro; simp
  | cons x xs ih =>
      intro hall
      rw [List.foldl_cons, hall x (by simp), h4]
      exact ih (fun y hy => hall y (by simp [hy]))

theorem nanminL_mix (data : List FVal) (v : ℚ)
    (hall : ∀ x ∈ data, x = .fin v ∨ x = .nan) (hmem : .fin v ∈ data) :
    nanminL data = some (.fin v) := by
  cases data with
  | nil => simp at hmem
  | cons x xs =>
      have hx := hall x (by simp)
      simp only [nanminL, Option.some_inj]
      refine foldl_mix _ v (by simp [FVal.fminNN]) (by simp [FVal.fminNN])
        (by simp [FVal.fminNN]) (by simp [FVal.fminNN]) xs x
        (fun y hy => hall y (by simp [hy])) hx ?_
      rcases hx with hx | hx
      · exact Or.inl hx
      · subst hx
        rcases List.mem_cons.1 hmem with h | h
        · exact absurd h (by simp)
        · exact Or.inr h

theorem nanmaxL_mix (data : List FVal) (v : ℚ)
    (hall : ∀ x ∈ data, x = .fin v ∨ x = .nan) (hmem : .fin v ∈ data) :
    nanmaxL data = some (.fin v) := by
  cases data with
  | nil => simp at hmem
  | cons x xs =>
      have hx := hall x (by simp)
      simp only [nanmaxL, Option.some_inj]
      refine foldl_mix _ v (by simp [FVal.fmaxNN]) (by simp [FVal.fmaxNN])
        (by simp [FVal.fmaxNN]) (by simp [FVal.fmaxNN]) xs x
        (fun y hy => hall y (by simp [hy])) hx ?_
      rcases hx with hx | hx
      · exact Or.inl hx
      · subst hx
        rcases List.mem_cons.1 hmem with h | h
        · exact absurd h (by simp)
        · exact Or.inr h

theorem percentileOfSorted_const (p : ℚ) (vs : List FVal) (v : ℚ)
    (hp0 : 0 ≤ p) (hp1 : p ≤ 100)
    (hvne : vs ≠ []) (hvall : ∀ x ∈ vs, x = .fin v) :
    percentileOfSorted p vs = .fin v := by
  have hvne' : vs.isEmpty = false := by
    cases vs with
    | nil => exact absurd rfl hvne
    | cons a l => simp
  have hk1 : 1 ≤ vs.length := by
    cases vs with
    | nil => exact absurd rfl hvne
    | cons a l => simp
  rw [percentileOfSorted, if_neg (by simp [hvne'])]
  set k := vs.length with hkdef
  set rank : ℚ := p / 100 * ((k : ℚ) - 1) with hrank
  have hkq : (1 : ℚ) ≤ (k : ℚ) := by exact_mod_cast hk1
  have hr0 : 0 ≤ rank := by
    rw [hrank]
    have hd : (0 : ℚ) ≤ p / 100 := by positivity
    nlinarith
  have hrk : rank ≤ (k : ℚ) - 1 := by
    rw [hrank]
    have h100 : p / 100 ≤ 1 := by
      rw [div_le_one (by norm_num)]
      exact hp1
    nlinarith [sub_nonneg.2 hkq]
  have hfl0 : 0 ≤ Int.floor rank := Int.floor_nonneg.2 hr0
  have hflk : Int.floor rank ≤ (k : ℤ) - 1 := by
    have h1 := Int.floor_mono hrk
    rwa [show ((k : ℚ) - 1) = (((k : ℤ) - 1 : ℤ) : ℚ) by push_cast; ring,
      Int.floor_intCast] at h1
  set i : ℕ := (Int.floor rank).toNat with hidef
  have hik : i < k := by omega
  have hicast : (i : ℚ) = ((Int.floor rank : ℤ) : ℚ) := by
    rw [hidef]
    exact_mod_cast congrArg (fun z : ℤ => (z : ℚ)) (Int.toNat_of_nonneg hfl0)
  by_cases hg : rank - (i : ℚ) = 0
  · rw [if_pos hg]
    exact hvall _ (getD_mem_of_lt hik _)
  · rw [if_neg hg]
    have hil : (i : ℚ) ≤ rank := by
      rw [hicast]; exact Int.floor_le rank
    have hik1 : i + 1 < k := by
      rcases lt_or_eq_of_le (Nat.succ_le_of_lt hik) with h | h
      · exact h
      · exfalso
        apply hg
        have hiq : (i : ℚ) = (k : ℚ) - 1 := by
          have hh : (i : ℚ) + 1 = (k : ℚ) := by exact_mod_cast h
          linarith
        have hre : rank = (i : ℚ) := le_antisymm (by rw [hiq]; exact hrk) hil
        rw [hre]; ring
    have e1 : vs.getD i .nan = .fin v := hvall _ (getD_mem_of_lt hik _)
    have e2 : vs.getD (i + 1) .nan = .fin v := hvall _ (getD_mem_of_lt hik1 _)
    rw [e1, e2]
    simp [fvLerp, FVal.fadd, FVal.fsub, FVal.fmulQ]

theorem nanpercentile_mix (p : ℚ) (data : List FVal) (v : ℚ)
    (hp0 : 0 ≤ p) (hp1 : p ≤ 100)
    (hall : ∀ x ∈ data, x = .fin v ∨ x = .nan) (hmem : .fin v ∈ data) :
    nanpercentile p data = .fin v := by
  have hfmem : FVal.fin v ∈ data.filter (fun x => !x.isNan) :=
    List.mem_filter.2 ⟨hmem, by simp [FVal.isNan]⟩
  rw [nanpercentile]
  refine percentileOfSorted_const p _ v hp0 hp1 ?_ ?_
  · intro h0
    have hvm := ((List.perm_insertionSort
      (fun a b => FVal.fleB a b = true) (data.filter (fun x => !x.isNan))).mem_iff).2 hfmem
    rw [h0] at hvm
    simp at hvm
  · intro x hx
    have hx' := ((List.perm_insertionSort
      (fun a b => FVal.fleB a b = true) (data.filter (fun x => !x.isNan))).mem_iff).1 hx
    have hxd := List.mem_of_mem_filter hx'
    have hxn := List.of_mem_filter hx'
    rcases hall x hxd with h | h
    · exact h
    · subst h; simp [FVal.isNan] at hxn

theorem tier3_limits_mix (d : List FVal) (v : ℚ)
    (hall : ∀ x ∈ d, x = .fin v ∨ x = .nan) (hmem : .fin v ∈ d) :
    tier3_limits d = (v, v + eps6) := by
  rw [tier3_limits, nanminL_mix d v hall hmem, nanmaxL_mix d v hall hmem]
  simp [FVal.isFinite, FVal.toQ]

theorem tier3_limits_nan (d : List FVal)
    (hall : ∀ x ∈ d, x = .nan) (hne : d ≠ []) :
    tier3_limits d = (0, eps6) := by
  cases d with
  | nil => exact absurd rfl hne
  | cons x xs =>
      have hx := hall x (by simp)
      subst hx
      have hmin : nanminL (FVal.nan :: xs) = some .nan := by
        simp only [nanminL, Option.some_inj]
        exact foldl_nan _ rfl xs (fun y hy => hall y (by simp [hy]))
      have hmax : nanmaxL (FVal.nan :: xs) = some .nan := by
        simp only [nanmaxL, Option.some_inj]
        exact foldl_nan _ rfl xs (fun y hy => hall y (by simp [hy]))
      rw [tier3_limits, hmin, hmax]
      simp [FVal.isFinite]

/-- C2: the display-range fallback of `_get_interval_limits` is
non-degenerate.  On a 2-D array whose finite samples all equal one finite
value `v` (with possible nans) the resolved range is `(v, v + 1e-6)`, and
on a non-empty all-nan array it is `(0.0, 1e-6)`.  The ZScale estimator
is a collaborator (`astropy.visualization.ZScaleInterval`); the `hz`
hypotheses record that it never reports two *distinct finite* bounds on
such arrays — its bounds are derived from the array's own finite sample
values (at most one distinct value here), or the call raises. -/
theorem display_range_fallback_nondegenerate
    (zs : List FVal → Option (FVal × FVal)) (d1 d2 : List FVal) (v : ℚ)
    (hz1 : ∀ p, zs d1 = some p → zAccept p = false)
    (hz2 : ∀ p, zs d2 = some p → zAccept p = false)
    (h1a : ∀ x ∈ d1, x = .fin v ∨ x = .nan) (h1b : .fin v ∈ d1)
    (h2a : ∀ x ∈ d2, x = .nan) (h2b : d2 ≠ []) :
    get_interval_limits zs d1 = (v, v + eps6)
    ∧ get_interval_limits zs d2 = (0, eps6) := by
  constructor
  · have hp1 : nanpercentile 1 d1 = .fin v :=
      nanpercentile_mix 1 d1 v (by norm_num) (by norm_num) h1a h1b
    have hp99 : nanpercentile 99 d1 = .fin v :=
      nanpercentile_mix 99 d1 v (by norm_num) (by norm_num) h1a h1b
    have ht2 : tier2_limits d1 = (v, v + eps6) := by
      rw [tier2_limits, hp1, hp99, tier3_limits_mix d1 v h1a h1b]
      simp [FVal.isFinite, FVal.toQ]
    cases hzz : zs d1 with
    | none => rw [get_interval_limits, hzz, ht2]
    | some p => simp [get_interval_limits, hzz, hz1 p hzz, ht2]
  · have hfil : d2.filter (fun x => !x.isNan) = [] := by
      rw [List.filter_eq_nil_iff]
      intro x hx
      rw [h2a x hx]
      simp [FVal.isNan]
    have hp1 : nanpercentile 1 d2 = .nan := by
      rw [nanpercentile, hfil]
      rfl
    have hp99 : nanpercentile 99 d2 = .nan := by
      rw [nanpercentile, hfil]
      rfl
    have ht2 : tier2_limits d2 = (0, eps6) := by
      rw [tier2_limits, hp1, hp99, tier3_limits_nan d2 h2a h2b]
      simp [FVal.isFinite]
    cases hzz : zs d2 with
    | none => rw [get_interval_limits, hzz, ht2]
    | some p => simp [get_interval_limits, hzz, hz2 p hzz, ht2]

/-- Witness for C2: a one-element uniform array and a one-element all-nan
array, with a ZScale estimator that raises. -/
theorem display_range_fallback_nondegenerate_witness :
    get_interval_limits (fun _ => none) [FVal.fin (7 / 2)] = (7 / 2, 7 / 2 + eps6)
    ∧ get_interval_limits (fun _ => none) [FVal.nan] = (0, eps6) :=
  display_range_fallback_nondegenerate (fun _ => none) [FVal.fin (7 / 2)] [FVal.nan] (7 / 2)
    (fun p h => Option.noConfusion h) (fun p h => Option.noConfusion h)
    (by intro x hx; simp only [List.mem_singleton] at hx; exact Or.inl hx)
    (by simp)
    (by intro x hx; simpa using hx)
    (by simp)

/-! ## C3 — downsampling caps series length and spans the index range -/

theorem linspace_pairwise (n m : ℕ) (hm : 2 ≤ m) (hn : m < n) :
    List.Pairwise (· < ·) ((List.range m).map (fun i => i * (n - 1) / (m - 1))) := by
  rw [List.pairwise_map]
  refine (List.pairwise_lt_range m).imp ?_
  intro a b hab
  have hd : 0 < m - 1 := by omega
  have hD : m - 1 + 1 ≤ n - 1 := by omega
  have h1 : a * (n - 1) / (m - 1) + 1 = (a * (n - 1) + (m - 1)) / (m - 1) :=
    (Nat.add_div_right _ hd).symm
  have h2 : a * (n - 1) + (m - 1) ≤ b * (n - 1) := by
    have hb : a + 1 ≤ b := hab
    have : (a + 1) * (n - 1) ≤ b * (n - 1) := Nat.mul_le_mul_right _ hb
    nlinarith [Nat.sub_le n 1]
  calc a * (n - 1) / (m - 1) < a * (n - 1) / (m - 1) + 1 := Nat.lt_succ_self _
    _ = (a * (n - 1) + (m - 1)) / (m - 1) := h1
    _ ≤ b * (n - 1) / (m - 1) := Nat.div_le_div_right h2

theorem downsample_indices_eq (n m : ℕ) (hm : 2 ≤ m) (hn : m < n) :
    downsample_indices n m = (List.range m).map (fun i => i * (n - 1) / (m - 1)) := by
  have hpw := linspace_pairwise n m hm hn
  rw [downsample_indices, if_neg (by omega)]
  have hsorted : List.Sorted (· ≤ ·) ((List.range m).map (fun i => i * (n - 1) / (m - 1))) :=
    hpw.imp (fun h => Nat.le_of_lt h)
  rw [hsorted.insertionSort_eq]
  exact List.Nodup.dedup (hpw.imp fun h => Nat.ne_of_lt h)

theorem selectIdx_length : ∀ (idx : List ℕ) (l l' : List FVal),
    selectIdx l idx = some l' → l'.length = idx.length := by
  intro idx
  induction idx with
  | nil => intro l l' h; simp [selectIdx] at h; simp [← h]
  | cons i rest ih =>
      intro l l' h
      rw [selectIdx] at h
      cases hv : l.get? i with
      | none => rw [hv] at h; exact absurd h (by simp)
      | some v =>
          rw [hv] at h
          cases hs : selectIdx l rest with
          | none => rw [hs] at h; exact absurd h (by simp)
          | some vs =>
              rw [hs] at h
              simp only [Option.some_inj] at h
              subst h
              simp [ih l vs hs]

theorem seriesOf_x_length (t : TableData) (c1 c2 : String) (b : Bool)
    (x y : List FVal) (n : ℕ) (h : seriesOf t c1 c2 b = some (x, y, n)) :
    x.length = min n MAX_TABLE_ROWS := by
  rw [seriesOf] at h
  cases hcc : colCells t c1 with
  | none => rw [hcc] at h; exact absurd h (by simp)
  | some xcells =>
  simp only [hcc] at h
  cases hcf : cellsToFloats xcells with
  | none => rw [hcf] at h; exact absurd h (by simp)
  | some x0 =>
  simp only [hcf] at h
  have hfin : ∀ y0 : List FVal,
      (if MAX_TABLE_ROWS < x0.length then
        match selectIdx x0 (downsample_indices x0.length MAX_TABLE_ROWS),
              selectIdx y0 (downsample_indices x0.length MAX_TABLE_ROWS) with
        | some xd, some yd => some (xd, yd, x0.length)
        | _, _ => none
      else some (x0, y0, x0.length)) = some (x, y, n) →
      x.length = min n MAX_TABLE_ROWS := by
    intro y0 hy
    by_cases hcap : MAX_TABLE_ROWS < x0.length
    · rw [if_pos hcap] at hy
      cases hx2 : selectIdx x0 (downsample_indices x0.length MAX_TABLE_ROWS) with
      | none => rw [hx2] at hy; exact absurd hy (by simp)
      | some xd =>
          cases hy2 : selectIdx y0 (downsample_indices x0.length MAX_TABLE_ROWS) with
          | none => rw [hx2, hy2] at hy; exact absurd hy (by simp)
          | some yd =>
              rw [hx2, hy2] at hy
              simp only [Option.some_inj, Prod.mk.injEq] at hy
              obtain ⟨hh1, hh2, hh3⟩ := hy
              subst hh1; subst hh3
              rw [selectIdx_length _ _ _ hx2,
                downsample_indices_eq _ _ (by norm_num [MAX_TABLE_ROWS]) hcap]
              simp [Nat.min_eq_right (Nat.le_of_lt hcap)]
    · rw [if_neg hcap] at hy
      simp only [Option.some_inj, Prod.mk.injEq] at hy
      obtain ⟨hh1, hh2, hh3⟩ := hy
      subst hh1; subst hh3
      push_neg at hcap
      simp [Nat.min_eq_left hcap]
  cases b with
  | true =>
      simp only [if_pos] at h
      exact hfin _ h
  | false =>
      simp only [Bool.false_eq_true, if_false] at h
      cases hc2 : colCells t c2 with
      | none => rw [hc2] at h; exact absurd h (by simp)
      | some ycells =>
      simp only [hc2] at h
      cases hcf2 : cellsToFloats ycells with
      | none => rw [hcf2] at h; exact absurd h (by simp)
      | some y0 =>
      simp only [hcf2] at h
      exact hfin _ h

/-- C3: the rendered series of every light-curve, spectrum or table render
has length `min N 50000` where `N = nRows` is the row count of the
resolved x column; and above the cap the downsampled index set has exactly
50000 strictly increasing entries starting at 0 and ending at `N - 1`. -/
theorem rendered_series_cap (n : ℕ) (hn : MAX_TABLE_ROWS < n) :
    ((downsample_indices n MAX_TABLE_ROWS).length = MAX_TABLE_ROWS
      ∧ List.Pairwise (· < ·) (downsample_indices n MAX_TABLE_ROWS)
      ∧ (downsample_indices n MAX_TABLE_ROWS).head? = some 0
      ∧ (downsample_indices n MAX_TABLE_ROWS).getLast? = some (n - 1))
    ∧ ∀ (file : FitsFile) (i : ℤ) (cols : List String) (p : PlotSeries),
        (render_light_curve file i cols = some p ∨ render_spectrum file i cols = some p
          ∨ render_table_scatter file i cols = some p) →
        p.xs.length = min p.nRows MAX_TABLE_ROWS := by
  have hm2 : 2 ≤ MAX_TABLE_ROWS := by norm_num [MAX_TABLE_ROWS]
  have heq := downsample_indices_eq n MAX_TABLE_ROWS hm2 hn
  constructor
  · refine ⟨?_, ?_, ?_, ?_⟩
    · rw [heq]; simp
    · rw [heq]; exact linspace_pairwise n MAX_TABLE_ROWS hm2 hn
    · rw [heq, List.head?_map, List.head?_range]
      norm_num [MAX_TABLE_ROWS]
    · rw [heq]
      have h5 : MAX_TABLE_ROWS = 49999 + 1 := by norm_num [MAX_TABLE_ROWS]
      rw [h5, List.range_succ, List.map_append, List.map_cons, List.map_nil,
        List.getLast?_concat]
      have hc : (49999 : ℕ) * (n - 1) / (49999 + 1 - 1) = n - 1 := by
        norm_num
      rw [hc]
  · intro file i cols p hp
    rcases hp with hp | hp | hp
    · rw [render_light_curve] at hp
      cases ht : tableAt file i with
      | none => rw [ht] at hp; exact absurd hp (by simp)
      | some t =>
          simp only [ht] at hp
          by_cases hcc : (time_flux_columns cols).1 = "" ∨ (time_flux_columns cols).2 = ""
          · rw [if_pos hcc] at hp; exact absurd hp (by simp)
          · rw [if_neg hcc] at hp
            cases hs : seriesOf t (time_flux_columns cols).1 (time_flux_columns cols).2 false with
            | none => rw [hs] at hp; exact absurd hp (by simp)
            | some xyn =>
                obtain ⟨x, y, m⟩ := xyn
                simp only [hs, Option.some_inj] at hp
                subst hp
                exact seriesOf_x_length _ _ _ _ _ _ _ hs
    · rw [render_spectrum] at hp
      cases ht : tableAt file i with
      | none => rw [ht] at hp; exact absurd hp (by simp)
      | some t =>
          simp only [ht] at hp
          by_cases hcc : (wavelength_flux_columns cols).1 = "" ∨ (wavelength_flux_columns cols).2 = ""
          · rw [if_pos hcc] at hp; exact absurd hp (by simp)
          · rw [if_neg hcc] at hp
            cases hs : seriesOf t (wavelength_flux_columns cols).1 (wavelength_flux_columns cols).2 false with
            | none => rw [hs] at hp; exact absurd hp (by simp)
            | some xyn =>
                obtain ⟨x, y, m⟩ := xyn
                simp only [hs, Option.some_inj] at hp
                subst hp
                exact seriesOf_x_length _ _ _ _ _ _ _ hs
    · rw [render_table_scatter] at hp
      cases ht : tableAt file i with
      | none => rw [ht] at hp; exact absurd hp (by simp)
      | some t =>
          simp only [ht] at hp
          by_cases hcc : (first_numeric_columns t cols).1 = ""
          · rw [if_pos hcc] at hp; exact absurd hp (by simp)
          · rw [if_neg hcc] at hp
            cases hs : seriesOf t (first_numeric_columns t cols).1 (first_numeric_columns t cols).2
                ((first_numeric_columns t cols).2 = "") with
            | none => rw [hs] at hp; exact absurd hp (by simp)
            | some xyn =>
                obtain ⟨x, y, m⟩ := xyn
                simp only [hs, Option.some_inj] at hp
                subst hp
                exact seriesOf_x_length _ _ _ _ _ _ _ hs

/-- Witness for C3 at `n = 50001`. -/
theorem rendered_series_cap_witness :
    MAX_TABLE_ROWS < 50001 ∧
    (((downsample_indices 50001 MAX_TABLE_ROWS).length = MAX_TABLE_ROWS
      ∧ List.Pairwise (· < ·) (downsample_indices 50001 MAX_TABLE_ROWS)
      ∧ (downsample_indices 50001 MAX_TABLE_ROWS).head? = some 0
      ∧ (downsample_indices 50001 MAX_TABLE_ROWS).getLast? = some (50001 - 1))
    ∧ ∀ (file : FitsFile) (i : ℤ) (cols : List String) (p : PlotSeries),
        (render_light_curve file i cols = some p ∨ render_spectrum file i cols = some p
          ∨ render_table_scatter file i cols = some p) →
        p.xs.length = min p.nRows MAX_TABLE_ROWS) :=
  ⟨by norm_num [MAX_TABLE_ROWS], rendered_series_cap 50001 (by norm_num [MAX_TABLE_ROWS])⟩

/-! ## C10 — units classified `image` with a non-2-D array get a null preview -/

/-- C10 (implicit): a unit whose classification is `image` but whose actual
sample array is not two-dimensional always receives a null preview —
`_render_image` fails closed on `ndim != 2` — even though the classifier
labels every image-like unit of declared dimensionality 1 as `image`, a
plottable category. -/
theorem image_non2d_null_preview :
    (∀ (zs : List FVal → Option (FVal × FVal)) (file : FitsFile) (a : PyDict)
        (fid : String) (mk : Bool) (i : ℤ) (hdu : Hdu) (arr : NDArr) (k : String),
      dget a "classification" = some (.pstr "image") →
      dget a "hdu_index" = some (.pint i) →
      pyIndex file i = some hdu →
      hdu.data = some (.img arr k) →
      arr.shape.length ≠ 2 →
      visualize_hdu zs file a fid mk = none)
    ∧ (∀ (file : FitsFile) (s : PyDict) (ty : String) (sh : List ℤ),
      dget s "hdu_type" = some (.pstr ty) →
      isImageType ty = true →
      dget s "data_shape" = some (.pints sh) →
      sh.length = 1 →
      dget (analyze_hdu file s) "classification" = some (.pstr "image")) := by
  constructor
  · intro zs file a fid mk i hdu arr k hc hi hpy hd hnd
    have hri : render_image zs file i = none := by
      simp only [render_image, hpy, hd]
      rw [if_pos hnd]
    cases mk with
    | false => rfl
    | true =>
        simp only [visualize_hdu, hi, hc, Bool.not_true, Bool.false_eq_true, if_false]
        rw [if_pos (show IMAGE_LIKE.contains "image" = true from rfl), hri]
        rfl
  · intro file s ty sh hty himg hsh hdim
    have hcore : analyzeCore file s = some ("image", [], unitsDictOf s) := by
      simp only [analyzeCore, hty, hsh]
      rw [if_pos himg, if_neg (show ¬ 2 ≤ sh.length by omega), if_pos hdim]
    rw [analyze_hdu, hcore]
    simp only
    rw [dget_dset_ne _ _ _ _ (by decide), dget_dset_ne _ _ _ _ (by decide),
      dget_dset_ne _ _ _ _ (by decide), dget_dset_self]

/-- Witness for C10: a file whose only unit declares `NAXIS = 1` but holds
a 1-D float array, classified `image` and rendered to a null preview. -/
theorem image_non2d_null_preview_witness :
    visualize_hdu (fun _ => none)
      [⟨"ImageHDU", some [("BITPIX", .vi (-32)), ("NAXIS", .vi 1), ("NAXIS1", .vi 3)],
        some (.img ⟨[3], [.fin 1, .fin 2, .fin 3]⟩ "f")⟩]
      [("hdu_index", .pint 0), ("classification", .pstr "image")] "x" true = none
    ∧ dget (analyze_hdu
        [⟨"ImageHDU", some [("BITPIX", .vi (-32)), ("NAXIS", .vi 1), ("NAXIS1", .vi 3)],
          some (.img ⟨[3], [.fin 1, .fin 2, .fin 3]⟩ "f")⟩]
        [("hdu_type", .pstr "ImageHDU"), ("data_shape", .pints [3])])
      "classification" = some (.pstr "image") :=
  ⟨image_non2d_null_preview.1 (fun _ => none)
      [⟨"ImageHDU", some [("BITPIX", .vi (-32)), ("NAXIS", .vi 1), ("NAXIS1", .vi 3)],
        some (.img ⟨[3], [.fin 1, .fin 2, .fin 3]⟩ "f")⟩]
      [("hdu_index", .pint 0), ("classification", .pstr "image")] "x" true 0
      ⟨"ImageHDU", some [("BITPIX", .vi (-32)), ("NAXIS", .vi 1), ("NAXIS1", .vi 3)],
        some (.img ⟨[3], [.fin 1, .fin 2, .fin 3]⟩ "f")⟩
      ⟨[3], [.fin 1, .fin 2, .fin 3]⟩ "f"
      (by decide) (by decide) (by decide) (by decide) (by decide),
   image_non2d_null_preview.2
      [⟨"ImageHDU", some [("BITPIX", .vi (-32)), ("NAXIS", .vi 1), ("NAXIS1", .vi 3)],
        some (.img ⟨[3], [.fin 1, .fin 2, .fin 3]⟩ "f")⟩]
      [("hdu_type", .pstr "ImageHDU"), ("data_shape", .pints [3])]
      "ImageHDU" [3] (by decide) (by decide) (by decide) (by decide)⟩

/-! ## C7 — additive layering: the analyzer rewrites the `units` field -/

/-- A one-table-unit file whose table declares `TTYPE1 = MJD`,
`TUNIT1 = d`. -/
def tunitFile : FitsFile :=
  [⟨"BinTableHDU",
    some [("XTENSION", .vs "BINTABLE"), ("NAXIS", .vi 2), ("NAXIS1", .vi 8), ("NAXIS2", .vi 3),
          ("TTYPE1", .vs "MJD"), ("TFORM1", .vs "D"), ("TUNIT1", .vs "d")],
    some (.tbl ⟨[⟨"MJD", "D", [.cnum (.fin 1), .cnum (.fin 2), .cnum (.fin 3)]⟩]⟩)⟩]

/-- C7 counterexample: the extractor records `units = {TUNIT1: d}` for a
table unit, but the classifier's output maps `units` to `{MJD: d}` — the
extractor's key/value for `units` is not present unchanged, refuting the
claim as stated. -/
theorem analyzer_units_rewrite_cex :
    dget ((get_summary tunitFile).headD []) "units" = some (.pdict [("TUNIT1", .vs "d")])
    ∧ dget (analyze_hdu tunitFile ((get_summary tunitFile).headD [])) "units"
        = some (.pdict [("MJD", .vs "d")])
    ∧ PyVal.pdict [("TUNIT1", .vs "d")] ≠ PyVal.pdict [("MJD", .vs "d")] := by
  refine ⟨by decide, by decide, by decide⟩

theorem analyze_hdu_shape (file : FitsFile) (s : PyDict) :
    ∃ c cols units am, analyze_hdu file s =
      dset (dset (dset (dset s "classification" (.pstr c)) "column_names" (.pstrs cols))
        "units" (.pdict units)) "axis_meaning" (.pdict am) := by
  simp only [analyze_hdu]
  cases h : analyzeCore file s with
  | none => exact ⟨_, _, _, _, rfl⟩
  | some r =>
      obtain ⟨c, cols, u⟩ := r
      exact ⟨_, _, _, _, rfl⟩

theorem analyzeCore_units_nontable (file : FitsFile) (s : PyDict)
    (hty : ∀ t, dget s "hdu_type" = some (.pstr t) → isTableType t = false) :
    ∀ c cols un, analyzeCore file s = some (c, cols, un) → un = unitsDictOf s := by
  intro c cols un h
  rw [analyzeCore] at h
  cases hh : dget s "hdu_type" with
  | none =>
      simp only [hh] at h
      rw [if_neg (by decide : ¬ isImageType "" = true),
        if_neg (by decide : ¬ isTableType "" = true)] at h
      simp only [Option.some_inj, Prod.mk.injEq] at h
      exact h.2.2.symm
  | some pv =>
      cases pv with
      | pstr t =>
          simp only [hh] at h
          by_cases himg : isImageType t = true
          · rw [if_pos himg] at h
            cases hsh : (match dget s "data_shape" with
                | some (.pints l) => some l
                | none => some ([] : List ℤ)
                | some _ => none) with
            | none => rw [hsh] at h; exact absurd h (by simp)
            | some shape =>
                simp only [hsh] at h
                simp only [Option.some_inj, Prod.mk.injEq] at h
                exact h.2.2.symm
          · rw [if_neg himg, if_neg (by simp [hty t hh])] at h
            simp only [Option.some_inj, Prod.mk.injEq] at h
            exact h.2.2.symm
      | pint n => simp only [hh] at h; exact absurd h (by simp)
      | prat q => simp only [hh] at h; exact absurd h (by simp)
      | pbool b => simp only [hh] at h; exact absurd h (by simp)
      | pnone => simp only [hh] at h; exact absurd h (by simp)
      | pints l => simp only [hh] at h; exact absurd h (by simp)
      | pstrs l => simp only [hh] at h; exact absurd h (by simp)
      | pdict d => simp only [hh] at h; exact absurd h (by simp)

/-- C7 amended: the classifier's output is a new dict layered over the
summary; every extractor key other than `units` is present unchanged, and
`units` too is preserved for all non-table units — only table units get a
rewritten `units` dict (remapped from `TUNITn` keys to column names), as
the counterexample forces. -/
theorem analyzer_preserves_fields (file : FitsFile) (s : PyDict) :
    (∀ (k : String) (v : PyVal),
      k ≠ "classification" → k ≠ "column_names" → k ≠ "units" → k ≠ "axis_meaning" →
      dget s k = some v → dget (analyze_hdu file s) k = some v)
    ∧ (∀ u : List (String × SVal),
      (∀ t, dget s "hdu_type" = some (.pstr t) → isTableType t = false) →
      dget s "units" = some (.pdict u) →
      dget (analyze_hdu file s) "units" = some (.pdict u)) := by
  constructor
  · intro k v h1 h2 h3 h4 hv
    obtain ⟨c, cols, units, am, hsh⟩ := analyze_hdu_shape file s
    rw [hsh, dget_dset_ne _ _ _ _ h4, dget_dset_ne _ _ _ _ h3,
      dget_dset_ne _ _ _ _ h2, dget_dset_ne _ _ _ _ h1]
    exact hv
  · intro u hty hu
    simp only [analyze_hdu]
    cases h : analyzeCore file s with
    | none =>
        simp only [unitsDictOf, hu]
        rw [dget_dset_ne _ _ _ _ (by decide), dget_dset_self]
    | some r =>
        obtain ⟨c, cols, un⟩ := r
        have hun := analyzeCore_units_nontable file s hty c cols un h
        simp only [unitsDictOf, hu] at hun
        simp only [hun]
        rw [dget_dset_ne _ _ _ _ (by decide), dget_dset_self]

/-- Witness for C7 amended: a primary image unit whose fields, `units`
included, survive classification unchanged. -/
theorem analyzer_preserves_fields_witness :
    dget (analyze_hdu [] [("hdu_type", .pstr "PrimaryHDU"), ("data_shape", .pints [2, 2]),
        ("units", .pdict [("BUNIT", .vs "adu")])]) "hdu_type" = some (.pstr "PrimaryHDU")
    ∧ dget (analyze_hdu [] [("hdu_type", .pstr "PrimaryHDU"), ("data_shape", .pints [2, 2]),
        ("units", .pdict [("BUNIT", .vs "adu")])]) "units"
        = some (.pdict [("BUNIT", .vs "adu")]) :=
  ⟨(analyzer_preserves_fields [] [("hdu_type", .pstr "PrimaryHDU"),
      ("data_shape", .pints [2, 2]), ("units", .pdict [("BUNIT", .vs "adu")])]).1
      "hdu_type" (.pstr "PrimaryHDU") (by decide) (by decide) (by decide) (by decide) (by decide),
   (analyzer_preserves_fields [] [("hdu_type", .pstr "PrimaryHDU"),
      ("data_shape", .pints [2, 2]), ("units", .pdict [("BUNIT", .vs "adu")])]).2
      [("BUNIT", .vs "adu")]
      (by intro t ht; simp only [dget] at ht; simp at ht; rw [← ht]; decide)
      (by decide)⟩

/-! ## C5 — image-like classification rules -/

/-- A 2-D image unit whose `DATATYPE` card is truthy but markerless while
`EXTNAME` carries an explicit uncertainty marker. -/
def maskedErrFile : FitsFile :=
  [⟨"ImageHDU",
    some [("XTENSION", .vs "IMAGE"), ("BITPIX", .vi 16), ("NAXIS", .vi 2),
          ("NAXIS1", .vi 3), ("NAXIS2", .vi 3), ("DATATYPE", .vs "IMAGE"),
          ("EXTNAME", .vs "UNCERTAINTY")],
    some (.img ⟨[3, 3], [.fin 1, .fin 1, .fin 1, .fin 1, .fin 1, .fin 1, .fin 1, .fin 1, .fin 1]⟩
      "i")⟩]

/-- C5 counterexample: a 2-D image unit whose name field `EXTNAME`
contains the marker "uncertainty" (a type/class/name field matches,
case-insensitively) yet is classified `image`, not `error_map`, because
the code inspects only the first truthy field of the `DATATYPE`,
`HDUCLAS1`, `EXTNAME` chain and `DATATYPE = "IMAGE"` masks `EXTNAME`. -/
theorem error_map_first_field_cex :
    strContains (lowerStr "UNCERTAINTY") "uncertainty" = true
    ∧ dget ((get_summary maskedErrFile).headD []) "data_shape" = some (.pints [3, 3])
    ∧ dget (analyze_hdu maskedErrFile ((get_summary maskedErrFile).headD []))
        "classification" = some (.pstr "image") := by
  refine ⟨by decide, by decide, by decide⟩

theorem analyze_hdu_classification (file : FitsFile) (s : PyDict)
    (c : String) (cols : List String) (un : List (String × SVal))
    (h : analyzeCore file s = some (c, cols, un)) :
    dget (analyze_hdu file s) "classification" = some (.pstr c) := by
  simp only [analyze_hdu, h]
  rw [dget_dset_ne _ _ _ _ (by decide), dget_dset_ne _ _ _ _ (by decide),
    dget_dset_ne _ _ _ _ (by decide), dget_dset_self]

theorem analyzeCore_image (file : FitsFile) (s : PyDict) (ty : String) (sh : List ℤ)
    (hty : dget s "hdu_type" = some (.pstr ty)) (himg : isImageType ty = true)
    (hsh : dget s "data_shape" = some (.pints sh)) :
    analyzeCore file s = some
      ((if 2 ≤ sh.length then
          if header_suggests_error_map (headerDictOf s) then "error_map"
          else if header_suggests_low_contrast (headerDictOf s) s then "low_contrast_image"
          else "image"
        else if sh.length = 1 then "image" else "unknown"), [], unitsDictOf s) := by
  simp only [analyzeCore, hty, hsh]
  rw [if_pos himg]

/-- The spec's 100×100 uniform float scenario file: a single primary unit
with `BITPIX = -64` and a 100×100 array every sample of which is 3.5. -/
def uniformFile : FitsFile :=
  [⟨"PrimaryHDU",
    some [("SIMPLE", .vb true), ("BITPIX", .vi (-64)), ("NAXIS", .vi 2),
          ("NAXIS1", .vi 100), ("NAXIS2", .vi 100)],
    some (.img ⟨[100, 100], List.replicate 10000 (.fin (mkRat 7 2))⟩ "f")⟩]

theorem finiteVals_replicate (m : ℕ) (v : ℚ) :
    finiteVals (List.replicate m (.fin v)) = List.replicate m v := by
  induction m with
  | zero => rfl
  | succ k ih =>
      rw [List.replicate_succ, List.replicate_succ, finiteVals, List.filterMap_cons]
      rw [finiteVals] at ih
      simp only [ih]

theorem filter_isFinite_replicate (m : ℕ) (v : ℚ) :
    (List.replicate m (FVal.fin v)).filter FVal.isFinite = List.replicate m (FVal.fin v) :=
  List.filter_eq_self.2 (fun a ha => by rw [List.eq_of_mem_replicate ha]; rfl)

theorem foldl_min_replicate (k : ℕ) (v : ℚ) : (List.replicate k v).foldl min v = v := by
  induction k with
  | zero => rfl
  | succ j ih => rw [List.replicate_succ, List.foldl_cons, min_self]; exact ih

theorem foldl_max_replicate (k : ℕ) (v : ℚ) : (List.replicate k v).foldl max v = v := by
  induction k with
  | zero => rfl
  | succ j ih => rw [List.replicate_succ, List.foldl_cons, max_self]; exact ih

theorem image_stats_uniform (sh : List ℕ) (m : ℕ) (v : ℚ)
    (hsh : 1 ≤ sh.length) (hm : m ≠ 0) :
    image_stats ⟨sh, List.replicate m (.fin v)⟩ =
      [("nan_fraction", .prat 0), ("min_value", .prat v),
       ("max_value", .prat v), ("is_uniform", .pbool true)] := by
  rw [image_stats]
  rw [if_neg (by omega : ¬ sh.length < 1)]
  obtain ⟨k, rfl⟩ : ∃ k, m = k + 1 := ⟨m - 1, by omega⟩
  simp only [List.length_replicate]
  rw [if_neg hm]
  rw [filter_isFinite_replicate, finiteVals_replicate, List.length_replicate,
    List.replicate_succ]
  simp only [foldl_min_replicate, foldl_max_replicate]
  have hq : ((k + 1 : ℕ) : ℚ) ≠ 0 := by positivity
  rw [div_self hq]
  norm_num

theorem get_summary_uniformFile :
    get_summary uniformFile =
      [[("hdu_index", .pint 0), ("hdu_type", .pstr "PrimaryHDU"),
        ("header", .pdict [("SIMPLE", .vb true), ("BITPIX", .vi (-64)), ("NAXIS", .vi 2),
                           ("NAXIS1", .vi 100), ("NAXIS2", .vi 100)]),
        ("data_shape", .pints [100, 100]),
        ("data_dtype", .pstr "unknown"),
        ("units", .pdict []),
        ("has_numeric_data", .pbool true),
        ("nan_fraction", .prat 0), ("min_value", .prat (mkRat 7 2)),
        ("max_value", .prat (mkRat 7 2)), ("is_uniform", .pbool true)]] := by
  have hst := image_stats_uniform [100, 100] 10000 (mkRat 7 2) (by norm_num) (by norm_num)
  simp only [get_summary, uniformFile, summaryGo, processUnit, Option.map, summary_entry]
  rw [if_pos (by norm_num)]
  rw [hst]
  decide

/-- C5 corrected/amended: for image-like units of declared dimensionality
at least 2 only the *first truthy* field among `DATATYPE`, `HDUCLAS1`,
`EXTNAME` is searched for the "error"/"uncertainty" markers (the
counterexample shows a later field does not trigger `error_map`); with
that reading the rules hold — marker hit → `error_map`, else declared
floating-point samples (`BITPIX < 0`) and the extractor's uniform flag →
`low_contrast_image`, else `image`; dimensionality 1 → `image`, 0 →
`unknown`.  The 100×100 uniform-3.5 float file is extracted with
`is_uniform = true`, `nan_fraction = 0` and classified
`low_contrast_image`. -/
theorem image_classification_rules :
    (∀ (file : FitsFile) (s : PyDict) (ty : String) (sh : List ℤ),
      dget s "hdu_type" = some (.pstr ty) → isImageType ty = true →
      dget s "data_shape" = some (.pints sh) →
      ((2 ≤ sh.length → header_suggests_error_map (headerDictOf s) = true →
          dget (analyze_hdu file s) "classification" = some (.pstr "error_map"))
       ∧ (2 ≤ sh.length → header_suggests_error_map (headerDictOf s) = false →
          header_suggests_low_contrast (headerDictOf s) s = true →
          dget (analyze_hdu file s) "classification" = some (.pstr "low_contrast_image"))
       ∧ (2 ≤ sh.length → header_suggests_error_map (headerDictOf s) = false →
          header_suggests_low_contrast (headerDictOf s) s = false →
          dget (analyze_hdu file s) "classification" = some (.pstr "image"))
       ∧ (sh.length = 1 → dget (analyze_hdu file s) "classification" = some (.pstr "image"))
       ∧ (sh.length = 0 → dget (analyze_hdu file s) "classification" = some (.pstr "unknown"))))
    ∧ (dget ((get_summary uniformFile).headD []) "is_uniform" = some (.pbool true)
       ∧ dget ((get_summary uniformFile).headD []) "nan_fraction" = some (.prat 0)
       ∧ dget (analyze_hdu uniformFile ((get_summary uniformFile).headD []))
           "classification" = some (.pstr "low_contrast_image")) := by
  constructor
  · intro file s ty sh hty himg hsh
    have hcore := analyzeCore_image file s ty sh hty himg hsh
    refine ⟨?_, ?_, ?_, ?_, ?_⟩
    · intro hd2 herr
      refine analyze_hdu_classification file s _ [] (unitsDictOf s) ?_
      rw [hcore, if_pos hd2, if_pos herr]
    · intro hd2 herr hlc
      refine analyze_hdu_classification file s _ [] (unitsDictOf s) ?_
      rw [hcore, if_pos hd2, if_neg (by simp [herr]), if_pos hlc]
    · intro hd2 herr hlc
      refine analyze_hdu_classification file s _ [] (unitsDictOf s) ?_
      rw [hcore, if_pos hd2, if_neg (by simp [herr]), if_neg (by simp [hlc])]
    · intro hd1
      refine analyze_hdu_classification file s _ [] (unitsDictOf s) ?_
      rw [hcore, if_neg (by omega : ¬ 2 ≤ sh.length), if_pos hd1]
    · intro hd0
      refine analyze_hdu_classification file s _ [] (unitsDictOf s) ?_
      rw [hcore, if_neg (by omega : ¬ 2 ≤ sh.length), if_neg (by omega : ¬ sh.length = 1)]
  · rw [get_summary_uniformFile]
    refine ⟨by decide, by decide, by decide⟩

/-- Witness for C5 at a concrete error-map summary and the scenario
conjuncts. -/
theorem image_classification_rules_witness :
    dget (analyze_hdu [] [("hdu_type", .pstr "ImageHDU"), ("data_shape", .pints [4, 4]),
        ("header", .pdict [("DATATYPE", .vs "ERROR MAP")])])
      "classification" = some (.pstr "error_map")
    ∧ dget (analyze_hdu uniformFile ((get_summary uniformFile).headD []))
        "classification" = some (.pstr "low_contrast_image") :=
  ⟨((image_classification_rules.1 [] [("hdu_type", .pstr "ImageHDU"),
      ("data_shape", .pints [4, 4]), ("header", .pdict [("DATATYPE", .vs "ERROR MAP")])]
      "ImageHDU" [4, 4] (by decide) (by decide) (by decide)).1
      (by norm_num) (by decide)),
   image_classification_rules.2.2.2⟩

/-! ## C6 — unit index invariants -/

/-- The `hdu_index` value of one summary (default 0, as the orchestrator's
`a.get` default never fires on parser-produced dicts). -/
def extractIdx (s : PyDict) : ℤ :=
  match dget s "hdu_index" with
  | some (.pint n) => n
  | _ => 0

/-- The index column of a summary list. -/
def summaryIndices (ss : List PyDict) : List ℤ := ss.map extractIdx

/-- A three-unit file whose middle unit's header read raises. -/
def gapFile : FitsFile :=
  [⟨"PrimaryHDU", some [("NAXIS", .vi 0)], none⟩,
   ⟨"ImageHDU", none, none⟩,
   ⟨"ImageHDU", some [("NAXIS", .vi 0)], none⟩]

/-- C6 counterexample: a unit whose header read fails is skipped
(fits-parser.py:183), so the extracted summaries carry indices `[0, 2]` —
unique and ascending but *not* dense, refuting the density part of the
claim. -/
theorem index_density_cex :
    summaryIndices (get_summary gapFile) = [0, 2]
    ∧ (List.range (get_summary gapFile).length).map (fun k => (k : ℤ)) = [0, 1]
    ∧ summaryIndices (get_summary gapFile)
        ≠ (List.range (get_summary gapFile).length).map (fun k => (k : ℤ)) := by
  refine ⟨by decide, by decide, by decide⟩

theorem summary_entry_index (i : ℕ) (hdu : Hdu) (h : Header) :
    dget (summary_entry i hdu h) "hdu_index" = some (.pint (i : ℤ)) := by
  rw [summary_entry]
  repeat' split
  all_goals rfl

theorem extractIdx_summary_entry (i : ℕ) (hdu : Hdu) (h : Header) :
    extractIdx (summary_entry i hdu h) = (i : ℤ) := by
  rw [extractIdx, summary_entry_index]

theorem processUnit_some (i : ℕ) (hdu : Hdu) (entry : PyDict)
    (h : processUnit i hdu = some entry) :
    ∃ hdr, hdu.header = some hdr ∧ entry = summary_entry i hdu hdr := by
  rw [processUnit] at h
  cases hh : hdu.header with
  | none => rw [hh] at h; cases h
  | some hdr =>
      rw [hh] at h
      simp only [Option.map_some', Option.some_inj] at h
      exact ⟨hdr, rfl, h.symm⟩

theorem summaryGo_bound_pairwise : ∀ (l : List Hdu) (i : ℕ),
    (∀ x ∈ summaryIndices (summaryGo i l), (i : ℤ) ≤ x)
    ∧ List.Pairwise (· < ·) (summaryIndices (summaryGo i l)) := by
  intro l
  induction l with
  | nil =>
      intro i
      exact ⟨fun x hx => absurd hx (List.not_mem_nil x), List.Pairwise.nil⟩
  | cons hdu rest ih =>
      intro i
      rw [summaryGo]
      cases hh : processUnit i hdu with
      | none =>
          refine ⟨fun x hx => ?_, (ih (i + 1)).2⟩
          have h1 := (ih (i + 1)).1 x hx
          have : ((i : ℤ)) ≤ ((i + 1 : ℕ) : ℤ) := by push_cast; omega
          omega
      | some entry =>
          obtain ⟨hdr, hhd, rfl⟩ := processUnit_some i hdu entry hh
          constructor
          · intro x hx
            simp only [summaryIndices, List.map_cons, List.mem_cons] at hx
            rcases hx with hx | hx
            · rw [hx, extractIdx_summary_entry]
            · have h1 := (ih (i + 1)).1 x hx
              have : ((i : ℤ)) ≤ ((i + 1 : ℕ) : ℤ) := by push_cast; omega
              omega
          · show List.Pairwise _ (extractIdx (summary_entry i hdu hdr)
              :: summaryIndices (summaryGo (i + 1) rest))
            refine List.Pairwise.cons (fun y hy => ?_) (ih (i + 1)).2
            have h1 := (ih (i + 1)).1 y hy
            rw [extractIdx_summary_entry]
            have : ((i : ℤ)) < ((i + 1 : ℕ) : ℤ) := by push_cast; omega
            omega

theorem summaryGo_dense : ∀ (l : List Hdu) (i : ℕ),
    (∀ hdu ∈ l, hdu.header ≠ none) →
    summaryIndices (summaryGo i l) = (List.range' i l.length).map (fun k => (k : ℤ)) := by
  intro l
  induction l with
  | nil => intro i _; rfl
  | cons hdu rest ih =>
      intro i hall
      rw [summaryGo]
      cases hh : processUnit i hdu with
      | none =>
          exfalso
          rw [processUnit] at hh
          cases hhh : hdu.header with
          | none => exact hall hdu (by simp) hhh
          | some hdr => rw [hhh] at hh; cases hh
      | some entry =>
          obtain ⟨hdr, hhd, rfl⟩ := processUnit_some i hdu entry hh
          show extractIdx (summary_entry i hdu hdr) :: summaryIndices (summaryGo (i + 1) rest)
            = _
          rw [extractIdx_summary_entry, ih (i + 1) (fun h hm => hall h (by simp [hm]))]
          simp [List.length_cons, List.range'_succ]

theorem summaryGo_index_present : ∀ (l : List Hdu) (i : ℕ) (s : PyDict),
    s ∈ summaryGo i l → ∃ n : ℤ, dget s "hdu_index" = some (.pint n) := by
  intro l
  induction l with
  | nil => intro i s hs; simp [summaryGo] at hs
  | cons hdu rest ih =>
      intro i s hs
      rw [summaryGo] at hs
      cases hh : processUnit i hdu with
      | none => rw [hh] at hs; exact ih (i + 1) s hs
      | some entry =>
          rw [hh] at hs
          rcases List.mem_cons.1 hs with hs | hs
          · obtain ⟨hdr, hhd, rfl⟩ := processUnit_some i hdu entry hh
            subst hs
            exact ⟨(i : ℤ), summary_entry_index i hdu hdr⟩
          · exact ih (i + 1) s hs

theorem analyze_hdu_index (file : FitsFile) (s : PyDict) :
    dget (analyze_hdu file s) "hdu_index" = dget s "hdu_index" := by
  obtain ⟨c, cols, units, am, hsh⟩ := analyze_hdu_shape file s
  rw [hsh, dget_dset_ne _ _ _ _ (by decide), dget_dset_ne _ _ _ _ (by decide),
    dget_dset_ne _ _ _ _ (by decide), dget_dset_ne _ _ _ _ (by decide)]

theorem summaryIndices_analyze (file : FitsFile) (ss : List PyDict) :
    summaryIndices (analyze file ss) = summaryIndices ss := by
  rw [summaryIndices, analyze, List.map_map]
  exact List.map_congr_left (fun s _ => by
    show extractIdx (analyze_hdu file s) = extractIdx s
    rw [extractIdx, analyze_hdu_index, extractIdx])

theorem assembleGo_index_map : ∀ (l : List PyDict) (urls : List (Option String)) (i : ℕ),
    (∀ a ∈ l, ∃ n : ℤ, dget a "hdu_index" = some (.pint n)) →
    (assembleGo i l urls).map HduRecord.index = summaryIndices l := by
  intro l
  induction l with
  | nil => intro urls i _; rfl
  | cons a rest ih =>
      intro urls i hall
      obtain ⟨n, hn⟩ := hall a (by simp)
      show (buildRecord i a ((urls.get? 0).getD none)).index
          :: (assembleGo (i + 1) rest (urls.drop 1)).map HduRecord.index
        = extractIdx a :: summaryIndices rest
      rw [ih (urls.drop 1) (i + 1) (fun b hb => hall b (by simp [hb]))]
      show (buildRecord i a ((urls.get? 0).getD none)).index :: _ = _
      have : (buildRecord i a ((urls.get? 0).getD none)).index = extractIdx a := by
        rw [buildRecord, extractIdx, hn]
      rw [this]

/-- C6 corrected/amended: extracted summary indices are strictly
ascending (hence unique), each equal to its unit's ordinal position; they
are dense (`0, 1, 2, ...`) whenever no unit is skipped — a unit whose
header read raises is skipped, leaving a gap, as the counterexample shows;
and when the pipeline reaches assembly the final record list carries
exactly the summaries' indices in the same order. -/
theorem index_order_amended (zs : List FVal → Option (FVal × FVal)) (file : FitsFile)
    (mk : Except String Unit) (nm fid : String) :
    List.Pairwise (· < ·) (summaryIndices (get_summary file))
    ∧ ((∀ hdu ∈ file, hdu.header ≠ none) →
        summaryIndices (get_summary file) = (List.range file.length).map (fun k => (k : ℤ)))
    ∧ ((get_summary file ≠ []
        ∧ (get_summary file).any
            (fun s => pyTruthy ((dget s "has_numeric_data").getD .pnone)) = true
        ∧ (analyze file (get_summary file)).any recPlottable = true) →
        (run_pipeline zs (.ok file) mk nm fid).status = "success"
        ∧ (run_pipeline zs (.ok file) mk nm fid).hdus.map HduRecord.index
            = summaryIndices (get_summary file)) := by
  refine ⟨(summaryGo_bound_pairwise file 0).2, ?_, ?_⟩
  · intro hall
    rw [get_summary, summaryGo_dense file 0 hall, List.range_eq_range']
  · rintro ⟨hne, hn, hp⟩
    have h1 : (get_summary file).isEmpty = false := by
      cases hh : get_summary file with
      | nil => exact absurd hh hne
      | cons a l => simp
    have hidx : ∀ a ∈ analyze file (get_summary file),
        ∃ n : ℤ, dget a "hdu_index" = some (.pint n) := by
      intro a ha
      rw [analyze] at ha
      obtain ⟨s, hs, rfl⟩ := List.mem_map.1 ha
      obtain ⟨n, hn2⟩ := summaryGo_index_present file 0 s hs
      exact ⟨n, by rw [analyze_hdu_index, hn2]⟩
    have hasm : ∀ urls, (assembleGo 0 (analyze file (get_summary file)) urls).map
        HduRecord.index = summaryIndices (get_summary file) := by
      intro urls
      rw [assembleGo_index_map _ urls 0 hidx, summaryIndices_analyze]
    cases mk with
    | ok u =>
        obtain ⟨⟩ := u
        constructor
        · simp [run_pipeline, h1, hn, hp]
        · have hr : (run_pipeline zs (.ok file) (.ok ()) nm fid).hdus
              = assembleGo 0 (analyze file (get_summary file))
                  (visualize zs file (analyze file (get_summary file)) fid true) := by
            simp [run_pipeline, h1, hn, hp]
          rw [hr, hasm]
    | error e =>
        constructor
        · simp [run_pipeline, h1, hn, hp]
        · have hr : (run_pipeline zs (.ok file) (.error e) nm fid).hdus
              = assembleGo 0 (analyze file (get_summary file))
                  (List.replicate (analyze file (get_summary file)).length none) := by
            simp [run_pipeline, h1, hn, hp]
          rw [hr, hasm]

/-- Witness for C6 amended at the uniform scenario file. -/
theorem index_order_amended_witness :
    ((∀ hdu ∈ uniformFile, hdu.header ≠ none) →
      summaryIndices (get_summary uniformFile)
        = (List.range uniformFile.length).map (fun k => (k : ℤ)))
    ∧ ((run_pipeline (fun _ => none) (.ok uniformFile) (.ok ()) "f" "id").status = "success"
        ∧ (run_pipeline (fun _ => none) (.ok uniformFile) (.ok ()) "f" "id").hdus.map
            HduRecord.index = summaryIndices (get_summary uniformFile)) :=
  ⟨(index_order_amended (fun _ => none) uniformFile (.ok ()) "f" "id").2.1,
   (index_order_amended (fun _ => none) uniformFile (.ok ()) "f" "id").2.2
     ⟨by rw [get_summary_uniformFile]; simp,
      by rw [get_summary_uniformFile]; decide,
      by rw [get_summary_uniformFile]; decide⟩⟩

/-! ## C8 — table scatter with no numeric columns -/

/-- The spec's `["ID", "NOTES"]` table: two character-format columns with
non-numeric string data. -/
def notesTable : TableData :=
  ⟨[⟨"ID", "5A", [.cstr "a1", .cstr "b2"]⟩,
    ⟨"NOTES", "10A", [.cstr "alpha", .cstr "beta"]⟩]⟩

def notesFile : FitsFile :=
  [⟨"BinTableHDU",
    some [("XTENSION", .vs "BINTABLE"), ("TTYPE1", .vs "ID"), ("TFORM1", .vs "5A"),
          ("TTYPE2", .vs "NOTES"), ("TFORM2", .vs "10A")],
    some (.tbl notesTable)⟩]

/-- C8 counterexample: the `["ID", "NOTES"]` table is classified `table`
and the scatter fallback picks `(ID, NOTES)` as the two axes — but the
row index is *not* used (that happens only with exactly one numeric
column), the float conversion of the string data raises, and the preview
is null, refuting the claim's "producing a preview". -/
theorem table_scatter_no_preview_cex :
    dget (analyze_hdu notesFile ((get_summary notesFile).headD [])) "classification"
      = some (.pstr "table")
    ∧ first_numeric_columns notesTable ["ID", "NOTES"] = ("ID", "NOTES")
    ∧ render_table_scatter notesFile 0 ["ID", "NOTES"] = none
    ∧ visualize_hdu (fun _ => none) notesFile
        (analyze_hdu notesFile ((get_summary notesFile).headD [])) "x" true = none := by
  refine ⟨by decide, by decide, by decide, by decide⟩

/-- C8 corrected/amended: the classification is `table`; with zero
numeric-typed columns the scatter renderer falls back to the first two
declared columns as the two axes — not to the row index, which serves as
the dependent axis only when exactly one numeric column resolves — and
when the fallback (non-numeric) first column cannot be converted to
floats the render fails closed and the preview is null rather than
produced. -/
theorem table_scatter_fallback_rules :
    classify_table ["ID", "NOTES"] = "table"
    ∧ (∀ (t : TableData) (c1 c2 : String) (rest : List String),
        numericNames t (c1 :: c2 :: rest) = [] →
        first_numeric_columns t (c1 :: c2 :: rest) = (c1, c2))
    ∧ (∀ (t : TableData) (cols : List String) (c : String),
        numericNames t cols = [c] → cols.isEmpty = false →
        first_numeric_columns t cols = (c, ""))
    ∧ (∀ (t : TableData) (c1 : String) (cs : List Cell) (xs : List FVal),
        colCells t c1 = some cs → cellsToFloats cs = some xs →
        xs.length ≤ MAX_TABLE_ROWS →
        seriesOf t c1 "" true =
          some (xs, (List.range xs.length).map (fun j => FVal.fin (j : ℚ)), xs.length))
    ∧ (∀ (file : FitsFile) (i : ℤ) (cols : List String) (t : TableData),
        tableAt file i = some t →
        (∀ cs, colCells t (first_numeric_columns t cols).1 = some cs →
          cellsToFloats cs = none) →
        render_table_scatter file i cols = none) := by
  refine ⟨by decide, ?_, ?_, ?_, ?_⟩
  · intro t c1 c2 rest hn
    rw [first_numeric_columns, if_neg (by simp), hn]
    rfl
  · intro t cols c hn hne
    rw [first_numeric_columns, if_neg (by simp [hne]), hn]
  · intro t c1 cs xs hcs hxs hlen
    rw [seriesOf, hcs]
    simp only [hxs, if_true]
    rw [if_neg (by omega : ¬ MAX_TABLE_ROWS < xs.length)]
  · intro file i cols t ht hfail
    rw [render_table_scatter]
    simp only [ht]
    by_cases hc1 : (first_numeric_columns t cols).1 = ""
    · rw [if_pos hc1]
    · rw [if_neg hc1]
      have hs : seriesOf t (first_numeric_columns t cols).1 (first_numeric_columns t cols).2
          ((first_numeric_columns t cols).2 = "") = none := by
        rw [seriesOf]
        cases hcc : colCells t (first_numeric_columns t cols).1 with
        | none => rfl
        | some cs => simp only [hfail cs hcc]
      rw [hs]

/-- Witness for C8 amended at the `["ID", "NOTES"]` table. -/
theorem table_scatter_fallback_rules_witness :
    classify_table ["ID", "NOTES"] = "table"
    ∧ first_numeric_columns notesTable ["ID", "NOTES"] = ("ID", "NOTES")
    ∧ first_numeric_columns ⟨[⟨"T", "D", [.cnum (.fin 1)]⟩]⟩ ["T"] = ("T", "")
    ∧ seriesOf ⟨[⟨"T", "D", [.cnum (.fin 1), .cnum (.fin 2)]⟩]⟩ "T" "" true =
        some ([.fin 1, .fin 2], (List.range 2).map (fun j => FVal.fin (j : ℚ)), 2)
    ∧ render_table_scatter notesFile 0 ["ID", "NOTES"] = none :=
  ⟨table_scatter_fallback_rules.1,
   table_scatter_fallback_rules.2.1 notesTable "ID" "NOTES" [] (by decide),
   table_scatter_fallback_rules.2.2.1 ⟨[⟨"T", "D", [.cnum (.fin 1)]⟩]⟩ ["T"] "T"
     (by decide) (by decide),
   table_scatter_fallback_rules.2.2.2.1 ⟨[⟨"T", "D", [.cnum (.fin 1), .cnum (.fin 2)]⟩]⟩
     "T" [.cnum (.fin 1), .cnum (.fin 2)] [.fin 1, .fin 2] (by decide) (by decide)
     (by norm_num [MAX_TABLE_ROWS]),
   table_scatter_fallback_rules.2.2.2.2 notesFile 0 ["ID", "NOTES"] notesTable
     (by decide) (fun cs hcs => by
        have hc : cs = [Cell.cstr "a1", Cell.cstr "b2"] := by
          have := hcs
          rw [show (first_numeric_columns notesTable ["ID", "NOTES"]).1 = "ID" from by decide]
            at this
          simpa [colCells, notesTable, TCol.cells, List.find?] using this.symm
        rw [hc]
        decide)⟩

end Fits
